import Mathlib

/-!
Verification of the Entity Permissions Core services against their
natural-language specification.

The definitions below are a shallow embedding of the Python services in
`app/services` and `app/events_engine`:

* `app/services/audit.py` (`AuditService`): hash-chained audit ledger;
* `app/services/audit_verifier.py` (`AuditVerifier`): chain verification;
* `app/services/authorization.py` (`AuthorizationService`): role-based
  authorization over the entity hierarchy;
* `app/services/roles.py` (`RoleService`): role assignment management;
* `app/services/cache.py` (`InMemoryPermissionCache`, `RedisPermissionCache`);
* `app/events_engine/service.py` / `dispatcher.py` (`EventService`,
  `EventDispatcher`): event ingestion, deduplication and publishing.

Modelling conventions:

* UUIDs are opaque; they are modelled as strings (so Python `str(uuid)`
  is the identity).
* `datetime` values are modelled by a `Clock` carrying a comparable
  instant (`Nat`) and its UTC ISO-8601 rendering (`String`).  All
  datetimes handled by the services are timezone-normalized to UTC by
  pydantic validators, so `astimezone(timezone.utc).isoformat()` acts as
  the identity on the stored rendering.
* The SQLAlchemy session is modelled by explicit list-valued stores
  passed in and out of each operation; `session.add` + `flush` is
  appending to the store.
* `hashlib.sha256(...).hexdigest()` is implemented bit-for-bit below
  (`sha256hex`), and `json.dumps(payload, sort_keys=True,
  separators=(",", ":"), default=str)` is implemented by `Json.dump`
  after recursive key-sorting (`Json.canon`).
-/

set_option maxRecDepth 100000

namespace EPC

/-! ## JSON values and `json.dumps(..., sort_keys=True, separators=(",", ":"))` -/

/-- JSON value as produced by the Python services (dict / list / str /
int / bool / None).  `default=str` never fires for the payloads built by
the services, whose leaves are already JSON-serializable. -/
inductive Json where
  | null
  | bool (b : Bool)
  | num (n : Int)
  | str (s : String)
  | arr (items : List Json)
  | obj (fields : List (String × Json))

/-- Lexicographic code-point comparison on char lists (Python `str` `<`). -/
def ltChars : List Char → List Char → Bool
  | [], [] => false
  | [], _ :: _ => true
  | _ :: _, [] => false
  | a :: as, b :: bs =>
      if a.toNat < b.toNat then true
      else if b.toNat < a.toNat then false
      else ltChars as bs

/-- Python string ordering used by `sort_keys=True`. -/
def strLt (a b : String) : Bool := ltChars a.toList b.toList

/-- Insert one key/value pair into an ascending-by-key field list. -/
def insertSortedField (kv : String × Json) : List (String × Json) → List (String × Json)
  | [] => [kv]
  | x :: xs => if strLt x.1 kv.1 then x :: insertSortedField kv xs else kv :: x :: xs

/-- Sort object fields by key (insertion sort), as `sort_keys=True` does. -/
def sortFields : List (String × Json) → List (String × Json)
  | [] => []
  | x :: xs => insertSortedField x (sortFields xs)

/-- Hex digit characters used by the hexadecimal renderings below. -/
def hexChar (n : Nat) : Char :=
  match n with
  | 0 => '0' | 1 => '1' | 2 => '2' | 3 => '3' | 4 => '4' | 5 => '5' | 6 => '6' | 7 => '7'
  | 8 => '8' | 9 => '9' | 10 => 'a' | 11 => 'b' | 12 => 'c' | 13 => 'd' | 14 => 'e' | _ => 'f'

/-- Four-digit lowercase hex rendering used in `\uXXXX` escapes. -/
def hex4 (n : Nat) : String :=
  String.mk [hexChar ((n >>> 12) % 16), hexChar ((n >>> 8) % 16),
             hexChar ((n >>> 4) % 16), hexChar (n % 16)]

/-- Escape one character the way CPython `json.dumps` does with the
default `ensure_ascii=True` (so the serialized form is pure ASCII). -/
def escapeChar (c : Char) : String :=
  if c = '"' then "\\\""
  else if c = '\\' then "\\\\"
  else if c = '\n' then "\\n"
  else if c = '\r' then "\\r"
  else if c = '\t' then "\\t"
  else if c.toNat = 8 then "\\b"
  else if c.toNat = 12 then "\\f"
  else if c.toNat < 0x20 || 0x7e < c.toNat then
    if c.toNat < 0x10000 then "\\u" ++ hex4 c.toNat
    else
      let n := c.toNat - 0x10000
      "\\u" ++ hex4 (0xd800 + (n >>> 10)) ++ "\\u" ++ hex4 (0xdc00 + (n &&& 0x3ff))
  else String.mk [c]

/-- JSON string literal with escaping. -/
def jsonQuote (s : String) : String :=
  "\"" ++ String.join (s.toList.map escapeChar) ++ "\""

mutual

/-- Serialize a JSON value with separators `(",", ":")` (no incidental
whitespace).  Object fields are emitted in list order; `Json.canon` is
applied first to obtain the `sort_keys=True` behaviour. -/
def Json.dump : Json → String
  | .null => "null"
  | .bool true => "true"
  | .bool false => "false"
  | .num n => toString n
  | .str s => jsonQuote s
  | .arr xs => "[" ++ Json.dumpList xs ++ "]"
  | .obj fs => "\x7b" ++ Json.dumpFields fs ++ "\x7d"

/-- Comma-joined serialization of array items. -/
def Json.dumpList : List Json → String
  | [] => ""
  | [x] => Json.dump x
  | x :: y :: rest => Json.dump x ++ "," ++ Json.dumpList (y :: rest)

/-- Comma-joined serialization of object fields. -/
def Json.dumpFields : List (String × Json) → String
  | [] => ""
  | [(k, v)] => jsonQuote k ++ ":" ++ Json.dump v
  | (k, v) :: y :: rest => jsonQuote k ++ ":" ++ Json.dump v ++ "," ++ Json.dumpFields (y :: rest)

end

mutual

/-- Recursively sort every object's fields by key (`sort_keys=True`). -/
def Json.canon : Json → Json
  | .obj fs => .obj (sortFields (Json.canonFields fs))
  | .arr xs => .arr (Json.canonList xs)
  | .null => .null
  | .bool b => .bool b
  | .num n => .num n
  | .str s => .str s

/-- Canonicalize each array item. -/
def Json.canonList : List Json → List Json
  | [] => []
  | x :: xs => Json.canon x :: Json.canonList xs

/-- Canonicalize each field value. -/
def Json.canonFields : List (String × Json) → List (String × Json)
  | [] => []
  | (k, v) :: rest => (k, Json.canon v) :: Json.canonFields rest

end

/-! ## SHA-256 (`hashlib.sha256(data).hexdigest()`)

A bit-for-bit implementation of FIPS 180-4 SHA-256 over byte lists, with
32-bit words represented as `Nat` reduced mod `2^32`. -/

namespace Sha256

/-- `2^32`, the word modulus. -/
def M32 : Nat := 4294967296

/-- 32-bit modular addition. -/
def add32 (a b : Nat) : Nat := (a + b) % M32

/-- 32-bit right rotation. -/
def rotr (n x : Nat) : Nat := ((x >>> n) ||| (x <<< (32 - n))) % M32

/-- 32-bit bitwise complement. -/
def bnot32 (x : Nat) : Nat := x ^^^ 4294967295

/-- Message-schedule sigma-0. -/
def smallSigma0 (x : Nat) : Nat := (rotr 7 x) ^^^ (rotr 18 x) ^^^ (x >>> 3)

/-- Message-schedule sigma-1. -/
def smallSigma1 (x : Nat) : Nat := (rotr 17 x) ^^^ (rotr 19 x) ^^^ (x >>> 10)

/-- Compression Sigma-0. -/
def bigSigma0 (x : Nat) : Nat := (rotr 2 x) ^^^ (rotr 13 x) ^^^ (rotr 22 x)

/-- Compression Sigma-1. -/
def bigSigma1 (x : Nat) : Nat := (rotr 6 x) ^^^ (rotr 11 x) ^^^ (rotr 25 x)

/-- Choice function. -/
def ch (x y z : Nat) : Nat := (x &&& y) ^^^ ((bnot32 x) &&& z)

/-- Majority function. -/
def maj (x y z : Nat) : Nat := (x &&& y) ^^^ (x &&& z) ^^^ (y &&& z)

/-- Round constants (FIPS 180-4 §4.2.2, written in decimal). -/
def K : List Nat :=
  [1116352408, 1899447441, 3049323471, 3921009573,
   961987163, 1508970993, 2453635748, 2870763221,
   3624381080, 310598401, 607225278, 1426881987,
   1925078388, 2162078206, 2614888103, 3248222580,
   3835390401, 4022224774, 264347078, 604807628,
   770255983, 1249150122, 1555081692, 1996064986,
   2554220882, 2821834349, 2952996808, 3210313671,
   3336571891, 3584528711, 113926993, 338241895,
   666307205, 773529912, 1294757372, 1396182291,
   1695183700, 1986661051, 2177026350, 2456956037,
   2730485921, 2820302411, 3259730800, 3345764771,
   3516065817, 3600352804, 4094571909, 275423344,
   430227734, 506948616, 659060556, 883997877,
   958139571, 1322822218, 1537002063, 1747873779,
   1955562222, 2024104815, 2227730452, 2361852424,
   2428436474, 2756734187, 3204031479, 3329325298]

/-- Initial hash state (FIPS 180-4 §5.3.3, written in decimal). -/
def initH : List Nat :=
  [1779033703, 3144134277, 1013904242, 2773480762,
   1359893119, 2600822924, 528734635, 1541459225]

/-- Big-endian byte rendering of `x` on `n` bytes. -/
def beBytes (n x : Nat) : List Nat :=
  (List.range n).map (fun i => (x >>> (8 * (n - 1 - i))) % 256)

/-- SHA-256 padding: one `0x80` byte, zeros to 56 mod 64, then the
64-bit big-endian bit length. -/
def padMessage (msg : List Nat) : List Nat :=
  let len := msg.length
  let padZeros := (119 - len % 64) % 64
  msg ++ [0x80] ++ List.replicate padZeros 0 ++ beBytes 8 (len * 8)

/-- Split into 64-byte blocks (fuel-driven so the kernel can evaluate it). -/
def toBlocksAux : Nat → List Nat → List (List Nat)
  | 0, _ => []
  | _, [] => []
  | fuel + 1, l => (l.take 64) :: toBlocksAux fuel (l.drop 64)

/-- Split a padded message into its 64-byte blocks. -/
def toBlocks (l : List Nat) : List (List Nat) :=
  toBlocksAux l.length l

/-- Combine bytes into big-endian 32-bit words. -/
def bytesToWords : List Nat → List Nat
  | b0 :: b1 :: b2 :: b3 :: rest =>
      (b0 * 16777216 + b1 * 65536 + b2 * 256 + b3) :: bytesToWords rest
  | _ => []

/-- Sliding window of the last sixteen schedule words. -/
structure SchedWindow where
  w0 : Nat
  w1 : Nat
  w2 : Nat
  w3 : Nat
  w4 : Nat
  w5 : Nat
  w6 : Nat
  w7 : Nat
  w8 : Nat
  w9 : Nat
  w10 : Nat
  w11 : Nat
  w12 : Nat
  w13 : Nat
  w14 : Nat
  w15 : Nat

/-- Extend the message schedule by `n` further words. -/
def schedExt : Nat → SchedWindow → List Nat
  | 0, _ => []
  | n + 1, w =>
      let w16 := (smallSigma1 w.w14 + w.w9 + smallSigma0 w.w1 + w.w0) % M32
      w16 :: schedExt n ⟨w.w1, w.w2, w.w3, w.w4, w.w5, w.w6, w.w7, w.w8, w.w9,
        w.w10, w.w11, w.w12, w.w13, w.w14, w.w15, w16⟩

/-- The full 64-word message schedule of one block. -/
def fullSchedule (w : List Nat) : List Nat :=
  w ++ schedExt 48 ⟨w.getD 0 0, w.getD 1 0, w.getD 2 0, w.getD 3 0, w.getD 4 0,
    w.getD 5 0, w.getD 6 0, w.getD 7 0, w.getD 8 0, w.getD 9 0, w.getD 10 0,
    w.getD 11 0, w.getD 12 0, w.getD 13 0, w.getD 14 0, w.getD 15 0⟩

/-- The eight working registers of the compression function. -/
structure Hs where
  a : Nat
  b : Nat
  c : Nat
  d : Nat
  e : Nat
  f : Nat
  g : Nat
  h : Nat

/-- One compression round, applied to a round constant paired with a
schedule word. -/
def roundStep (st : Hs) (kw : Nat × Nat) : Hs :=
  let t1 := (st.h + bigSigma1 st.e + ch st.e st.f st.g + kw.1 + kw.2) % M32
  let t2 := (bigSigma0 st.a + maj st.a st.b st.c) % M32
  ⟨(t1 + t2) % M32, st.a, st.b, st.c, (st.d + t1) % M32, st.e, st.f, st.g⟩

/-- Compress one 64-byte block into the running hash value. -/
def processBlock (hv : List Nat) (block : List Nat) : List Nat :=
  let ws := fullSchedule (bytesToWords block)
  let st0 : Hs := ⟨hv.getD 0 0, hv.getD 1 0, hv.getD 2 0, hv.getD 3 0,
                   hv.getD 4 0, hv.getD 5 0, hv.getD 6 0, hv.getD 7 0⟩
  let st := (K.zip ws).foldl roundStep st0
  [add32 (hv.getD 0 0) st.a, add32 (hv.getD 1 0) st.b, add32 (hv.getD 2 0) st.c,
   add32 (hv.getD 3 0) st.d, add32 (hv.getD 4 0) st.e, add32 (hv.getD 5 0) st.f,
   add32 (hv.getD 6 0) st.g, add32 (hv.getD 7 0) st.h]

/-- SHA-256 digest of a byte list, as eight 32-bit words. -/
def sha256Words (msg : List Nat) : List Nat :=
  (toBlocks (padMessage msg)).foldl processBlock initH

/-- Eight-digit lowercase hex rendering of one 32-bit word. -/
def hex8 (x : Nat) : String :=
  String.mk ((List.range 8).map (fun i => hexChar ((x >>> (4 * (7 - i))) % 16)))

/-- UTF-8 encoding of one character (Python `str.encode("utf-8")`). -/
def utf8EncodeCharBytes (c : Char) : List Nat :=
  let n := c.toNat
  if n < 0x80 then [n]
  else if n < 0x800 then [0xc0 ||| (n >>> 6), 0x80 ||| (n &&& 0x3f)]
  else if n < 0x10000 then
    [0xe0 ||| (n >>> 12), 0x80 ||| ((n >>> 6) &&& 0x3f), 0x80 ||| (n &&& 0x3f)]
  else
    [0xf0 ||| (n >>> 18), 0x80 ||| ((n >>> 12) &&& 0x3f),
     0x80 ||| ((n >>> 6) &&& 0x3f), 0x80 ||| (n &&& 0x3f)]

/-- UTF-8 bytes of a string. -/
def utf8Bytes (s : String) : List Nat :=
  s.toList.flatMap utf8EncodeCharBytes

end Sha256

/-- Hex digest of the SHA-256 of a string, `hashlib.sha256(s.encode("utf-8")).hexdigest()`. -/
def sha256hex (s : String) : String :=
  String.join ((Sha256.sha256Words (Sha256.utf8Bytes s)).map Sha256.hex8)

/-! ## Shape of the hex digest -/

/-- Characters allowed in a lowercase hex digest. -/
def isHexDigitChar (c : Char) : Bool :=
  ("0123456789abcdef".toList).contains c

/-- A string made only of lowercase hex digits. -/
def isHexString (s : String) : Bool := s.toList.all isHexDigitChar

/-! ## Audit ledger data model (`app/models/audit_log.py`, `app/schemas/audit.py`) -/

/-- UUIDs are opaque identifiers; modelled as strings, so `str(uuid)` is
the identity. -/
abbrev Uuid := String

/-- Wall clock reading: `datetime.now(timezone.utc)` modelled as a
comparable instant together with its UTC ISO-8601 rendering. -/
structure Clock where
  instant : Nat
  iso : String

/-- `AuditEvent` (pydantic schema in `app/schemas/audit.py`).  The
`occurred_at` field is stored as its UTC ISO-8601 rendering; the schema's
model validator normalizes every accepted datetime to UTC, so
`astimezone(timezone.utc).isoformat()` is the identity on it. -/
structure AuditEvent where
  event_id : Option Uuid := none
  source : String := "entity_permissions_core"
  action : String
  actor_id : Option Uuid := none
  actor_type : String := "user"
  entity_id : Option Uuid := none
  entity_type : Option String := none
  correlation_id : Option String := none
  details : List (String × Json) := []
  occurred_at : String

/-- `AuditLog` row (`app/models/audit_log.py`): exactly the persisted
audit-entry fields (the surrogate primary key and the created/updated
bookkeeping timestamps of `TimestampMixin` play no role in any service
and are omitted). -/
structure AuditLog where
  sequence : Nat
  previous_hash : String
  entry_hash : String
  hash_version : Nat
  event_id : Option String
  source : String
  occurred_at : String
  actor_id : Option Uuid
  actor_type : String
  entity_id : Option Uuid
  entity_type : Option String
  action : String
  correlation_id : Option String
  details : List (String × Json)

/-! ## `AuditService` (`app/services/audit.py`) -/

namespace AuditService

/-- `AuditService._HASH_VERSION`. -/
def HASH_VERSION : Nat := 1

/-- `AuditService._GENESIS_HASH = "0" * 64`. -/
def GENESIS_HASH : String := String.mk (List.replicate 64 '0')

/-- `AuditService._optional_str`: `str(value) if value is not None else
None`; with string-modelled UUIDs this is the identity. -/
def optional_str (value : Option Uuid) : Option String := value

/-- Render an optional string as a JSON value (`None` becomes `null`). -/
def optJson : Option String → Json
  | none => Json.null
  | some s => Json.str s

/-- `AuditService._serialize_for_hash`: `json.dumps(payload,
sort_keys=True, separators=(",", ":"), default=str)`. -/
def serialize_for_hash (payload : Json) : String :=
  Json.dump (Json.canon payload)

/-- `AuditService._compute_entry_hash`:
`hashlib.sha256((previous_hash + canonical_payload).encode("utf-8")).hexdigest()`. -/
def compute_entry_hash (previous_hash canonical_payload : String) : String :=
  sha256hex (previous_hash ++ canonical_payload)

/-- One step of selecting the max-sequence row (`ORDER BY sequence DESC
LIMIT 1`; on lockable backends the row is locked `FOR UPDATE`). -/
def tipStep (acc : Option AuditLog) (e : AuditLog) : Option AuditLog :=
  match acc with
  | none => some e
  | some m => if m.sequence < e.sequence then some e else some m

/-- `AuditService._lock_chain_tip` (continued): fold selecting the
max-sequence row. -/
def lock_chain_tip (store : List AuditLog) : Nat × String :=
  match store.foldl tipStep none with
  | none => (0, GENESIS_HASH)
  | some e => (e.sequence, e.entry_hash)

/-- The canonical dict built inside `record_event` before hashing. -/
def recordPayload (next_sequence : Nat) (event_id_str : Option String)
    (event : AuditEvent) (previous_hash : String) : Json :=
  Json.obj
    [("sequence", Json.num next_sequence),
     ("hash_version", Json.num HASH_VERSION),
     ("event_id", optJson event_id_str),
     ("source", Json.str event.source),
     ("action", Json.str event.action),
     ("actor_id", optJson (optional_str event.actor_id)),
     ("actor_type", Json.str event.actor_type),
     ("entity_id", optJson (optional_str event.entity_id)),
     ("entity_type", optJson event.entity_type),
     ("correlation_id", optJson event.correlation_id),
     ("details", Json.obj event.details),
     ("occurred_at", Json.str event.occurred_at),
     ("previous_hash", Json.str previous_hash)]

/-- Fresh-append path of `AuditService.record_event` (the code after
the idempotency guard): tip lock, canonical hash, and append.  Returns
the entry together with the updated store. -/
def record_event_fresh (store : List AuditLog) (event : AuditEvent)
    (event_id_str : Option String) : AuditLog × List AuditLog :=
  let tip := lock_chain_tip store
  let next_sequence := tip.1 + 1
  let previous_hash := tip.2
  let canonical_payload :=
    serialize_for_hash (recordPayload next_sequence event_id_str event previous_hash)
  let entry_hash := compute_entry_hash previous_hash canonical_payload
  let audit_entry : AuditLog :=
    { sequence := next_sequence
      previous_hash := previous_hash
      entry_hash := entry_hash
      hash_version := HASH_VERSION
      event_id := event_id_str
      source := event.source
      occurred_at := event.occurred_at
      actor_id := event.actor_id
      actor_type := event.actor_type
      entity_id := event.entity_id
      entity_type := event.entity_type
      action := event.action
      correlation_id := event.correlation_id
      details := event.details }
  (audit_entry, store ++ [audit_entry])

/-- The Python `event_id_str` expression (`str(event.event_id) if
event.event_id else None`, then falsy-guarded before the lookup). -/
def eventIdStr (event : AuditEvent) : Option String :=
  match event.event_id with
  | some x => if x = "" then none else some x
  | none => none

/-- `AuditService.record_event` (entry point): the idempotency lookup on
a truthy `event_id`, returning the existing row unchanged, else the
fresh-append path above. -/
def record_event (store : List AuditLog) (event : AuditEvent) : AuditLog × List AuditLog :=
  let event_id_str := eventIdStr event
  let existing := match event_id_str with
    | some x => store.find? (fun a => a.event_id == some x)
    | none => none
  match existing with
  | some entry => (entry, store)
  | none => record_event_fresh store event event_id_str

/-- `AuditService.record`: builds an `AuditEvent` with the service
defaults and delegates to `record_event`.  `occurred_at` defaults to
`datetime.now(timezone.utc)`, i.e. the clock's ISO rendering. -/
def record (store : List AuditLog) (clock : Clock) (action : String)
    (actor_id entity_id : Option Uuid) (entity_type : Option String)
    (details : List (String × Json)) : AuditLog × List AuditLog :=
  record_event store
    { event_id := none
      source := "entity_permissions_core"
      action := action
      actor_id := actor_id
      actor_type := "user"
      entity_id := entity_id
      entity_type := entity_type
      correlation_id := none
      details := details
      occurred_at := clock.iso }

/-- Fold a list of external events through `record_event`, keeping only
the resulting store (a ledger produced solely by the audit service). -/
def recordChain (events : List AuditEvent) (store : List AuditLog) : List AuditLog :=
  events.foldl (fun s e => (record_event s e).2) store

end AuditService

/-- Decidable equality for `Except` results (component-wise). -/
instance {e a : Type} [DecidableEq e] [DecidableEq a] : DecidableEq (Except e a) := fun x y =>
  match x, y with
  | .ok u, .ok v =>
      if h : u = v then isTrue (by rw [h]) else isFalse (fun hc => by cases hc; exact h rfl)
  | .error u, .error v =>
      if h : u = v then isTrue (by rw [h]) else isFalse (fun hc => by cases hc; exact h rfl)
  | .ok _, .error _ => isFalse (fun hc => by cases hc)
  | .error _, .ok _ => isFalse (fun hc => by cases hc)

/-- Placeholder audit entry used as the default of positional lookups. -/
def dflAuditLog : AuditLog :=
  { sequence := 0, previous_hash := "", entry_hash := "", hash_version := 1,
    event_id := none, source := "", occurred_at := "", actor_id := none,
    actor_type := "", entity_id := none, entity_type := none, action := "",
    correlation_id := none, details := [] }

/-! ## `AuditVerifier` (`app/services/audit_verifier.py`) -/

namespace AuditVerifier

/-- `VerificationResult` dataclass. -/
structure VerificationResult where
  checked : Nat
  start_sequence : Nat
  end_sequence : Nat
deriving DecidableEq, Repr

/-- Message of the sequence-gap `AuditVerificationError`. -/
def gapMessage (expected found : Nat) : String :=
  "Sequence gap detected. Expected " ++ toString expected ++ ", found " ++ toString found

/-- Message of the missing-predecessor `AuditVerificationError`. -/
def missingMessage (seq : Nat) : String :=
  "Missing audit entry for sequence " ++ toString seq

/-- Message of the hash-mismatch `AuditVerificationError`. -/
def hashMismatchMessage (seq : Nat) (expected stored : String) : String :=
  "Hash mismatch at sequence " ++ toString seq ++ ": expected " ++ expected ++
    ", stored " ++ stored

/-- The canonical dict the verifier rebuilds for one stored entry, with
`previous_hash` taken from the running hash (not the entry).  The
timezone fix-up on `occurred_at` is the identity in the model (stored
renderings are UTC), and `entry.details or \x7b\x7d` maps an empty dict to
itself. -/
def verifierPayload (entry : AuditLog) (previous_hash : String) : Json :=
  Json.obj
    [("sequence", Json.num entry.sequence),
     ("hash_version", Json.num entry.hash_version),
     ("event_id", AuditService.optJson entry.event_id),
     ("source", Json.str entry.source),
     ("action", Json.str entry.action),
     ("actor_id", AuditService.optJson (AuditService.optional_str entry.actor_id)),
     ("actor_type", Json.str entry.actor_type),
     ("entity_id", AuditService.optJson (AuditService.optional_str entry.entity_id)),
     ("entity_type", AuditService.optJson entry.entity_type),
     ("correlation_id", AuditService.optJson entry.correlation_id),
     ("details", Json.obj entry.details),
     ("occurred_at", Json.str entry.occurred_at),
     ("previous_hash", Json.str previous_hash)]

/-- The forward walk of `AuditVerifier.verify`: checks contiguity, the
chain link, and the recomputed digest of each entry, aborting with the
first violation.  The error string is the `AuditVerificationError`
message. -/
def verifyWalk : String → Option Nat → Nat → List AuditLog → Except String Nat
  | _, _, checked, [] => .ok checked
  | previous_hash, expectedOpt, checked, entry :: rest =>
    let expected_sequence := match expectedOpt with
      | some s => s + 1
      | none => entry.sequence
    if entry.sequence ≠ expected_sequence then
      .error (gapMessage expected_sequence entry.sequence)
    else
      let canonical_payload :=
        AuditService.serialize_for_hash (verifierPayload entry previous_hash)
      let expected_hash := AuditService.compute_entry_hash previous_hash canonical_payload
      if entry.previous_hash ≠ previous_hash ∨ entry.entry_hash ≠ expected_hash then
        .error (hashMismatchMessage entry.sequence expected_hash entry.entry_hash)
      else
        verifyWalk entry.entry_hash (some expected_sequence) (checked + 1) rest

/-- Range filter of the verifier's entry query. -/
def seqInRange (start_sequence end_sequence : Option Nat) (e : AuditLog) : Bool :=
  (match start_sequence with
   | none => true
   | some s => s ≤ e.sequence) &&
  (match end_sequence with
   | none => true
   | some s => e.sequence ≤ s)

/-- `AuditVerifier.verify`: fetch the entries in range ordered by
sequence, resolve the expected predecessor hash, and walk the chain.
`.error` carries the `AuditVerificationError` message.  The Python guard
`if start_sequence and start_sequence > 1:` treats `0`/`None` alike. -/
def verify (store : List AuditLog) (start_sequence end_sequence : Option Nat) :
    Except String VerificationResult :=
  let entries :=
    List.insertionSort (fun a b : AuditLog => a.sequence ≤ b.sequence)
      (store.filter (seqInRange start_sequence end_sequence))
  match entries with
  | [] => .ok { checked := 0
                start_sequence := start_sequence.getD 0
                end_sequence := end_sequence.getD 0 }
  | first :: restEntries =>
    let init : Except String (String × Option Nat) :=
      match start_sequence with
      | some s =>
        if 1 < s then
          match store.find? (fun e => e.sequence == s - 1) with
          | none => .error (missingMessage (s - 1))
          | some previous_entry => .ok (previous_entry.entry_hash, some (s - 1))
        else .ok (AuditService.GENESIS_HASH, none)
      | none => .ok (AuditService.GENESIS_HASH, none)
    match init with
    | .error m => .error m
    | .ok (previous_hash, expected_sequence) =>
      match verifyWalk previous_hash expected_sequence 0 (first :: restEntries) with
      | .error m => .error m
      | .ok checked =>
        .ok { checked := checked
              start_sequence := first.sequence
              end_sequence := (restEntries.getLastD first).sequence }

end AuditVerifier

/-! ## Entity / role / assignment data model (`app/models`) -/

/-- `EntityType` enum (`app/models/entity.py`). -/
inductive EntityType where
  | issuer
  | spv
  | offering
  | investor
  | agent
  | other
deriving DecidableEq, Repr

/-- The `.value` string of an `EntityType` member. -/
def EntityType.value : EntityType → String
  | .issuer => "issuer"
  | .spv => "spv"
  | .offering => "offering"
  | .investor => "investor"
  | .agent => "agent"
  | .other => "other"

/-- `EntityStatus` enum. -/
inductive EntityStatus where
  | active
  | inactive
  | archived
deriving DecidableEq, Repr

/-- `Entity` row.  Only `id`, `type`, `status` and `parent_id` are read
by the core services; `attributes` is the open key/value map. -/
structure Entity where
  id : Uuid
  name : String
  type : EntityType
  status : EntityStatus := .active
  parent_id : Option Uuid := none
  attributes : List (String × Json) := []

/-- `Permission` row: an atomic action string. -/
structure Permission where
  id : Uuid
  action : String
  description : Option String := none
deriving DecidableEq, Repr

/-- `Role` row with its many-to-many permission set resolved. -/
structure Role where
  id : Uuid
  name : String
  description : Option String := none
  is_system : Bool := false
  scope_types : List String := []
  permissions : List Permission := []
deriving DecidableEq, Repr

/-- `RoleAssignment` row.  `effective_at`/`expires_at` are UTC instants
(see `Clock`). -/
structure RoleAssignment where
  id : Uuid
  principal_id : Uuid
  principal_type : String := "user"
  entity_id : Option Uuid := none
  role_id : Uuid
  effective_at : Nat
  expires_at : Option Nat := none
deriving DecidableEq, Repr

/-- The relational store consulted by the authorization and role
services. -/
structure Db where
  entities : List Entity
  roles : List Role
  assignments : List RoleAssignment
  auditLogs : List AuditLog

/-! ## `InMemoryPermissionCache` (`app/services/cache.py`) -/

/-- Cache key `(principal_id, principal_type, resource_id, action)`,
each component already a string (`str()` of the id is the identity). -/
abbrev PermissionCacheKey := String × String × String × String

/-- In-process permission cache: the decision map plus the
principal-to-keys secondary index. -/
structure InMemoryPermissionCache where
  store : List (PermissionCacheKey × Bool) := []
  principal_index : List (String × List PermissionCacheKey) := []

namespace InMemoryPermissionCache

/-- `get`: dictionary lookup (first entry for the key). -/
def get (c : InMemoryPermissionCache) (key : PermissionCacheKey) : Option Bool :=
  (c.store.find? (fun kv => kv.1 == key)).map (fun kv => kv.2)

/-- Add `key` to the principal's index set. -/
def indexAdd : List (String × List PermissionCacheKey) → String → PermissionCacheKey →
    List (String × List PermissionCacheKey)
  | [], p, k => [(p, [k])]
  | (q, ks) :: rest, p, k =>
      if q = p then (q, if k ∈ ks then ks else k :: ks) :: rest
      else (q, ks) :: indexAdd rest p k

/-- `set`: store the decision and index the key under the principal. -/
def set (c : InMemoryPermissionCache) (key : PermissionCacheKey) (value : Bool)
    (principal_id : String) : InMemoryPermissionCache :=
  { store := (key, value) :: c.store.filter (fun kv => ¬ kv.1 = key)
    principal_index := indexAdd c.principal_index principal_id key }

/-- `invalidate`: clear everything. -/
def invalidate (_c : InMemoryPermissionCache) : InMemoryPermissionCache :=
  { store := [], principal_index := [] }

/-- `invalidate_for_principal`: pop the principal's key set and delete
each of those keys from the decision map. -/
def invalidate_for_principal (c : InMemoryPermissionCache) (principal_id : String) :
    InMemoryPermissionCache :=
  let keys := ((c.principal_index.find? (fun e => e.1 == principal_id)).map
    (fun e => e.2)).getD []
  { store := c.store.filter (fun kv => ¬ kv.1 ∈ keys)
    principal_index := c.principal_index.filter (fun e => ¬ e.1 = principal_id) }

end InMemoryPermissionCache

/-- Combined state threaded through the authorization and role services:
the relational store plus the process-wide in-memory permission cache. -/
structure AppState where
  db : Db
  cache : InMemoryPermissionCache

/-! ## `AuthorizationService` (`app/services/authorization.py`) -/

/-- `AuthorizationRequest` schema. -/
structure AuthorizationRequest where
  user_id : Uuid
  action : String
  resource_id : Uuid
  principal_type : String := "user"

/-- `EntityNotFoundError` raised by the authorization service. -/
inductive AuthorizationServiceError where
  | entityNotFound (msg : String)
deriving DecidableEq, Repr

namespace AuthorizationService

/-- `session.scalar(select(Entity.parent_id).where(Entity.id == current_id))`:
`None` when the row is missing or its `parent_id` is null. -/
def getParentId (db : Db) (current_id : Uuid) : Option Uuid :=
  match db.entities.find? (fun e => e.id == current_id) with
  | some e => e.parent_id
  | none => none

/-- Loop body of `_collect_entity_lineage_ids`, with explicit fuel.
Each iteration either stops (null or already-visited parent) or adds a
fresh id to `visited`; ids come from the finite entity table, so
`db.entities.length + 1` iterations always suffice. -/
def collectLineageAux (db : Db) : Nat → Uuid → List Uuid → List Uuid → List Uuid
  | 0, _, _, lineage => lineage
  | fuel + 1, current_id, visited, lineage =>
    match getParentId db current_id with
    | none => lineage
    | some parent_id =>
      if parent_id ∈ visited then lineage
      else collectLineageAux db fuel parent_id (parent_id :: visited) (lineage ++ [parent_id])

/-- `AuthorizationService._collect_entity_lineage_ids`: the entity id
followed by its ancestor chain, visited-set guarded against cycles. -/
def collect_entity_lineage_ids (db : Db) (entity_id : Uuid) : List Uuid :=
  collectLineageAux db (db.entities.length + 1) entity_id [entity_id] [entity_id]

/-- Row filters of the assignment query: principal match, effectivity
window, and the global-or-in-lineage entity condition. -/
def assignmentMatches (payload : AuthorizationRequest) (now : Nat)
    (lineage : List Uuid) (a : RoleAssignment) : Bool :=
  a.principal_id == payload.user_id &&
  a.principal_type == payload.principal_type &&
  a.effective_at ≤ now &&
  (match a.expires_at with
   | none => true
   | some t => now < t) &&
  (match a.entity_id with
   | none => true
   | some eid => lineage.contains eid)

/-- Whether the role's permission set grants the action (the join to
`Permission` with `Permission.action == payload.action`). -/
def roleGrants (r : Role) (action : String) : Bool :=
  r.permissions.any (fun p => p.action == action)

/-- One assignment's contribution to the candidate query: join (inner)
to its role and apply the row filters. -/
def candidateMap (db : Db) (payload : AuthorizationRequest) (now : Nat)
    (lineage : List Uuid) (a : RoleAssignment) : Option (RoleAssignment × Role) :=
  match db.roles.find? (fun r => r.id == a.role_id) with
  | some r =>
      if assignmentMatches payload now lineage a && roleGrants r payload.action then
        some (a, r)
      else none
  | none => none

/-- The rows of the candidate query. -/
def candidateRows (db : Db) (payload : AuthorizationRequest) (now : Nat)
    (lineage : List Uuid) : List (RoleAssignment × Role) :=
  db.assignments.filterMap (candidateMap db payload now lineage)

/-- `AuthorizationService.authorize`: load the entity (404 on missing),
walk the lineage, consult the cache, evaluate candidates with the
scope-type filter and first-match short-circuit, record the decision in
the audit ledger, and populate the cache. -/
def authorize (st : AppState) (clock : Clock) (payload : AuthorizationRequest) :
    Except AuthorizationServiceError Bool × AppState :=
  match st.db.entities.find? (fun e => e.id == payload.resource_id) with
  | none =>
      (.error (.entityNotFound ("Entity " ++ payload.resource_id ++ " not found")), st)
  | some entity =>
    let lineage_ids := collect_entity_lineage_ids st.db entity.id
    let now := clock.instant
    let cache_key : PermissionCacheKey :=
      (payload.user_id, payload.principal_type, payload.resource_id, payload.action)
    match st.cache.get cache_key with
    | some cached => (.ok cached, st)
    | none =>
      let rows := candidateRows st.db payload now lineage_ids
      let authorized := rows.any (fun ar =>
        ar.2.scope_types.isEmpty || ar.2.scope_types.contains entity.type.value)
      let audit2 := (AuditService.record st.db.auditLogs clock "authorization.evaluate"
        (some payload.user_id) (some entity.id) (some entity.type.value)
        [("action", Json.str payload.action),
         ("principal_type", Json.str payload.principal_type),
         ("authorized", Json.bool authorized)]).2
      let cache2 := st.cache.set cache_key authorized payload.user_id
      (.ok authorized, { db := { st.db with auditLogs := audit2 }, cache := cache2 })

end AuthorizationService

/-! ## `RoleService` (`app/services/roles.py`) -/

/-- The role-service error taxonomy (`RoleServiceError` and its
subclasses). -/
inductive RoleServiceError where
  | roleServiceError (msg : String)
  | roleNotFound (msg : String)
  | permissionScope (msg : String)
  | roleConflict (msg : String)
deriving DecidableEq, Repr

/-- `RoleAssignmentCreate` schema. -/
structure RoleAssignmentCreate where
  principal_id : Uuid
  principal_type : String := "user"
  entity_id : Option Uuid := none
  role_id : Uuid
  effective_at : Option Nat := none
  expires_at : Option Nat := none

namespace RoleService

/-- `RoleService._get_role` result (`session.get(Role, role_id)`). -/
def getRole (db : Db) (role_id : Uuid) : Option Role :=
  db.roles.find? (fun r => r.id == role_id)

/-- Continuation of `assign_role` after the scope checks: idempotent
lookup of an identical assignment, insert, audit entry, and
principal-scoped cache invalidation.  `new_id` stands for the generated
primary key of the inserted row. -/
def assignRoleInsert (st : AppState) (clock : Clock) (payload : RoleAssignmentCreate)
    (actor_id : Option Uuid) (new_id : Uuid) (entity : Option Entity) :
    Except RoleServiceError RoleAssignment × AppState :=
  match st.db.assignments.find? (fun a =>
      a.principal_id == payload.principal_id &&
      a.principal_type == payload.principal_type &&
      a.role_id == payload.role_id &&
      a.entity_id == payload.entity_id) with
  | some existing => (.ok existing, st)
  | none =>
    let assignment : RoleAssignment :=
      { id := new_id
        principal_id := payload.principal_id
        principal_type := payload.principal_type
        entity_id := payload.entity_id
        role_id := payload.role_id
        effective_at := payload.effective_at.getD clock.instant
        expires_at := payload.expires_at }
    let audit2 := (AuditService.record st.db.auditLogs clock "role_assignment.create"
      actor_id payload.entity_id ((entity.map (fun e => e.type.value)))
      [("role_id", Json.str payload.role_id),
       ("principal_id", Json.str payload.principal_id),
       ("principal_type", Json.str payload.principal_type)]).2
    let cache2 := st.cache.invalidate_for_principal payload.principal_id
    (.ok assignment,
     { db := { st.db with
         assignments := st.db.assignments ++ [assignment]
         auditLogs := audit2 }
       cache := cache2 })

/-- `RoleService.assign_role`: resolve the role (`RoleNotFoundError` if
unknown); when an `entity_id` is supplied, a missing entity or a
scope-type mismatch raises `PermissionScopeError`; then the idempotent
insert above. -/
def assign_role (st : AppState) (clock : Clock) (payload : RoleAssignmentCreate)
    (actor_id : Option Uuid) (new_id : Uuid) :
    Except RoleServiceError RoleAssignment × AppState :=
  match getRole st.db payload.role_id with
  | none =>
      (.error (.roleNotFound ("Role " ++ payload.role_id ++ " not found")), st)
  | some role =>
    match payload.entity_id with
    | some eid =>
      match st.db.entities.find? (fun e => e.id == eid) with
      | none =>
          (.error (.permissionScope ("Entity " ++ eid ++ " not found for assignment")), st)
      | some entity =>
        if role.scope_types ≠ [] ∧ ¬ entity.type.value ∈ role.scope_types then
          (.error (.permissionScope ("Role " ++ role.name ++
            " cannot be assigned to entity type " ++ entity.type.value)), st)
        else
          assignRoleInsert st clock payload actor_id new_id (some entity)
    | none => assignRoleInsert st clock payload actor_id new_id none

/-- `RoleService.revoke_assignment`: `RoleServiceError` when the id is
unknown; otherwise delete the row, record the audit entry, and
invalidate the cache for the assignment's principal. -/
def revoke_assignment (st : AppState) (clock : Clock) (assignment_id : Uuid)
    (actor_id : Option Uuid) : Except RoleServiceError Unit × AppState :=
  match st.db.assignments.find? (fun a => a.id == assignment_id) with
  | none =>
      (.error (.roleServiceError ("Assignment " ++ assignment_id ++ " not found")), st)
  | some assignment =>
    let entity_type := match assignment.entity_id with
      | some eid => (st.db.entities.find? (fun e => e.id == eid)).map (fun e => e.type.value)
      | none => none
    let assignments2 := st.db.assignments.filter (fun a => ¬ a.id = assignment_id)
    let audit2 := (AuditService.record st.db.auditLogs clock "role_assignment.delete"
      actor_id assignment.entity_id entity_type
      [("assignment_id", Json.str assignment_id)]).2
    let cache2 := st.cache.invalidate_for_principal assignment.principal_id
    (.ok (),
     { db := { st.db with
         assignments := assignments2
         auditLogs := audit2 }
       cache := cache2 })

end RoleService

/-! ## `RedisPermissionCache` (`app/services/cache.py`) -/

/-- Outcome of one Upstash REST round trip (`httpx.Client.post`): either
the transport raises (network failure), or an HTTP response with a
status code and the JSON body's `result` field comes back. -/
inductive RedisNetResult where
  | failure (msg : String)
  | response (status : Nat) (result : Option String)

/-- Failures propagating out of `RedisPermissionCache._execute`: a
transport error raised by `post`, or `raise_for_status()` on a 4xx/5xx
response. -/
inductive RedisCacheError where
  | network (msg : String)
  | httpStatus (status : Nat)
deriving DecidableEq, Repr

/-- `RedisPermissionCache` configuration (the `_prefix` field of the
Python class is called `pfx` here). -/
structure RedisPermissionCache where
  pfx : String
  ttl_ms : Nat

namespace RedisPermissionCache

/-- `_perm_key`. -/
def perm_key (c : RedisPermissionCache) (key : PermissionCacheKey) : String :=
  c.pfx ++ ":perm:" ++ key.1 ++ ":" ++ key.2.1 ++ ":" ++ key.2.2.1 ++ ":" ++ key.2.2.2

/-- `_execute`: POST the command; `raise_for_status()` raises on any
status of 400 or above; otherwise return the body's `result`.  The
network behaviour is an input function from commands to outcomes.  Note
that no exception is caught here: both failure shapes propagate. -/
def execute (net : List String → RedisNetResult) (command : List String) :
    Except RedisCacheError (Option String) :=
  match net command with
  | .failure msg => .error (.network msg)
  | .response status result =>
      if 400 ≤ status then .error (.httpStatus status) else .ok result

/-- `RedisPermissionCache.get`: `GET` the permission key; a null result
is a miss; a present result is compared against `"1"`.  Errors from
`_execute` propagate to the caller. -/
def get (c : RedisPermissionCache) (net : List String → RedisNetResult)
    (key : PermissionCacheKey) : Except RedisCacheError (Option Bool) :=
  match execute net ["GET", c.perm_key key] with
  | .error e => .error e
  | .ok none => .ok none
  | .ok (some result) => .ok (some (result == "1"))

end RedisPermissionCache

/-! ## Events engine (`app/events_engine`) -/

/-- `EventEnvelope` schema (`app/events_engine/schemas.py`);
`occurred_at` is its UTC ISO-8601 rendering (the field validator
normalizes to UTC). -/
structure EventEnvelope where
  event_id : Uuid
  event_type : String
  source : String
  occurred_at : String
  correlation_id : Option String := none
  schema_version : String := "v1"
  payload : List (String × Json) := []
  metadata : List (String × Json) := []

/-- `PlatformEvent` row (`app/models/platform_event.py`).  The delivery
bookkeeping fields keep their column defaults on this path and are
omitted. -/
structure PlatformEvent where
  event_id : String
  event_type : String
  source : String
  occurred_at : String
  correlation_id : Option String
  schema_version : String
  payload : List (String × Json)
  context : List (String × Json)

/-- `EventDispatcher` with its pluggable transport publisher.  The
publisher is the behaviour of `publisher.publish(envelope)`: `.error`
models the exception a real transport (`SnsEventPublisher`) re-raises;
`NullEventPublisher` never fails. -/
structure EventDispatcher where
  publisher : EventEnvelope → Except String Unit
  default_source : String

/-- `NullEventPublisher.publish`: a no-op. -/
def NullEventPublisher : EventEnvelope → Except String Unit := fun _ => .ok ()

/-- Observable outcome of `EventDispatcher.publish_event`: the returned
record or the propagated exception, the `platform_events` table after
the call, and the envelopes handed to the transport publisher. -/
structure PublishOutcome where
  result : Except String PlatformEvent
  events : List PlatformEvent
  published : List EventEnvelope

namespace EventDispatcher

/-- `EventDispatcher.publish_event`: build the canonical envelope
(`fresh_id` stands for the `uuid4()` default of `event_id`), persist the
row (`session.add` + `flush`) and only then invoke the publisher; a
publisher exception propagates while the row stays persisted.  The
canonical envelope construction is `buildEnvelope` (`fresh_id` stands
for the `uuid4()` default of `event_id`). -/
def buildEnvelope (d : EventDispatcher) (clock : Clock) (fresh_id : Uuid)
    (event_type : String) (payload : List (String × Json)) (source : Option String)
    (correlation_id : Option String) (occurred_at : Option String)
    (schema_version : String) (metadata : Option (List (String × Json))) : EventEnvelope :=
  { event_id := fresh_id
    event_type := event_type
    payload := payload
    source := source.getD d.default_source
    correlation_id := correlation_id
    occurred_at := occurred_at.getD clock.iso
    schema_version := schema_version
    metadata := metadata.getD [] }

/-- The `PlatformEvent` row persisted for an envelope. -/
def buildRecord (envelope : EventEnvelope) : PlatformEvent :=
  { event_id := envelope.event_id
    event_type := envelope.event_type
    source := envelope.source
    occurred_at := envelope.occurred_at
    correlation_id := envelope.correlation_id
    schema_version := envelope.schema_version
    payload := envelope.payload
    context := envelope.metadata }

/-- `EventDispatcher.publish_event` (continued): persist the row, then
invoke the publisher. -/
def publish_event (d : EventDispatcher) (events : List PlatformEvent) (clock : Clock)
    (fresh_id : Uuid) (event_type : String) (payload : List (String × Json))
    (source : Option String) (correlation_id : Option String)
    (occurred_at : Option String) (schema_version : String)
    (metadata : Option (List (String × Json))) : PublishOutcome :=
  let envelope := buildEnvelope d clock fresh_id event_type payload source
    correlation_id occurred_at schema_version metadata
  let record := buildRecord envelope
  let events2 := events ++ [record]
  match d.publisher envelope with
  | .error e => { result := .error e, events := events2, published := [envelope] }
  | .ok _ => { result := .ok record, events := events2, published := [envelope] }

end EventDispatcher

/-- `EventServiceError` raised by `EventService.ingest` when the
dispatcher raises (`raise EventServiceError("Failed to publish event")
from exc`).  This realizes the spec's `TransportError` taxonomy class
for publish failures. -/
inductive EventServiceErrorKind where
  | eventServiceError (msg : String)
deriving DecidableEq, Repr

/-- `EventIngestRequest` schema. -/
structure EventIngestRequest where
  event_type : String
  source : String
  payload : List (String × Json) := []
  context : List (String × Json) := []
  correlation_id : Option String := none
  occurred_at : Option String := none
  schema_version : String := "v1"

/-- Observable outcome of `EventService.ingest`: the returned record or
the propagated error, the `platform_events` table after the call, the
envelopes handed to the transport publisher, and the records handed to
the workflow orchestrator's `handle_event`. -/
structure IngestOutcome where
  result : Except EventServiceErrorKind PlatformEvent
  events : List PlatformEvent
  published : List EventEnvelope
  dispatched : List PlatformEvent

namespace EventService

/-- `EventService.ingest`: deduplicate on a truthy `correlation_id`
against `(source, correlation_id)`; on a hit return the stored record
with no persistence, publish, or dispatch.  Otherwise delegate to
`publish_event` (wrapping any exception in
`EventServiceError("Failed to publish event")`), then hand the record to
the workflow orchestrator, whose failures are caught and logged.  The
`document.verified` / `property.activated` follow-up handlers touch no
`platform_events` rows and swallow their own exceptions, so they are
no-ops on this state.  The dedup guard is `if request.correlation_id:`,
so an empty string is falsy and skips the lookup. -/
def ingestDedup (events : List PlatformEvent) (request : EventIngestRequest) :
    Option PlatformEvent :=
  match request.correlation_id with
  | some c =>
      if c = "" then none
      else events.find? (fun ev => ev.source == request.source &&
        ev.correlation_id == some c)
  | none => none

/-- `EventService.ingest` (continued): dedup hit returns the stored
record untouched; otherwise publish and dispatch. -/
def ingest (d : EventDispatcher) (orchestrator : PlatformEvent → Except String Unit)
    (events : List PlatformEvent) (clock : Clock) (fresh_id : Uuid)
    (request : EventIngestRequest) : IngestOutcome :=
  match ingestDedup events request with
  | some existing =>
      { result := .ok existing, events := events, published := [], dispatched := [] }
  | none =>
    let occurred_at := request.occurred_at.getD clock.iso
    let po := d.publish_event events clock fresh_id request.event_type request.payload
      (some request.source) request.correlation_id (some occurred_at)
      request.schema_version (some request.context)
    match po.result with
    | .error _ =>
        { result := .error (.eventServiceError "Failed to publish event")
          events := po.events
          published := po.published
          dispatched := [] }
    | .ok record =>
        let _ := orchestrator record
        { result := .ok record
          events := po.events
          published := po.published
          dispatched := [record] }

end EventService

/-! ## Derived definitions used by the verification -/

namespace AuditChain

open AuditService AuditVerifier

/-- The recomputable-digest property of one stored entry: its stored
`entry_hash` is the SHA-256 of its stored `previous_hash` concatenated
with the canonical JSON of all its fields except `entry_hash`. -/
def entryHashOk (e : AuditLog) : Prop :=
  e.entry_hash =
    compute_entry_hash e.previous_hash
      (serialize_for_hash (verifierPayload e e.previous_hash))

/-- The hash-chain invariant of a suffix of the ledger, relative to the
tip `(seq, ph)` preceding it. -/
def chainFrom (seq : Nat) (ph : String) : List AuditLog → Prop
  | [] => True
  | e :: rest =>
      e.sequence = seq + 1 ∧ e.previous_hash = ph ∧
      e.hash_version = HASH_VERSION ∧ entryHashOk e ∧
      chainFrom (seq + 1) e.entry_hash rest

/-- The hash-chain invariant of the full ledger. -/
def chainInv (store : List AuditLog) : Prop :=
  chainFrom 0 GENESIS_HASH store

/-- The running hash after consuming `l`, starting from `ph`. -/
def tailHash (ph : String) : List AuditLog → String
  | [] => ph
  | e :: rest => tailHash e.entry_hash rest

/-- The entry built and appended by the fresh path, spelled out. -/
def freshEntry (store : List AuditLog) (event : AuditEvent) (eid : Option String) : AuditLog :=
  { sequence := (lock_chain_tip store).1 + 1
    previous_hash := (lock_chain_tip store).2
    entry_hash :=
      compute_entry_hash (lock_chain_tip store).2
        (serialize_for_hash
          (recordPayload ((lock_chain_tip store).1 + 1) eid event (lock_chain_tip store).2))
    hash_version := HASH_VERSION
    event_id := eid
    source := event.source
    occurred_at := event.occurred_at
    actor_id := event.actor_id
    actor_type := event.actor_type
    entity_id := event.entity_id
    entity_type := event.entity_type
    action := event.action
    correlation_id := event.correlation_id
    details := event.details }

/-- Overwrite the `i`-th stored row with `f` applied to it (the model
of mutating one persisted entry in place). -/
def modifyAt : List AuditLog → Nat → (AuditLog → AuditLog) → List AuditLog
  | [], _, _ => []
  | e :: rest, 0, f => f e :: rest
  | e :: rest, i + 1, f => e :: modifyAt rest i f

/-- Mutation overwriting the stored `entry_hash`. -/
def setEntryHash (h' : String) (e : AuditLog) : AuditLog := { e with entry_hash := h' }

/-- Mutation overwriting the stored `previous_hash`. -/
def setPreviousHash (p' : String) (e : AuditLog) : AuditLog := { e with previous_hash := p' }

end AuditChain

namespace AuthzProofs

open AuthorizationService

/-- The boolean the evaluation loop computes on a cache miss. -/
def authzEval (st : AppState) (clock : Clock) (payload : AuthorizationRequest)
    (ent : Entity) : Bool :=
  (candidateRows st.db payload clock.instant
      (collect_entity_lineage_ids st.db ent.id)).any (fun ar =>
    ar.2.scope_types.isEmpty || ar.2.scope_types.contains ent.type.value)

end AuthzProofs

namespace EventProofs

open EventDispatcher EventService

/-- The envelope `ingest` hands to `publish_event` for a request. -/
def ingestEnvelope (d : EventDispatcher) (clock : Clock) (fresh_id : Uuid)
    (request : EventIngestRequest) : EventEnvelope :=
  buildEnvelope d clock fresh_id request.event_type request.payload
    (some request.source) request.correlation_id
    (some (request.occurred_at.getD clock.iso)) request.schema_version
    (some request.context)

/-- The `PlatformEvent` row `ingest` persists for a request. -/
def ingestRecord (d : EventDispatcher) (clock : Clock) (fresh_id : Uuid)
    (request : EventIngestRequest) : PlatformEvent :=
  buildRecord (ingestEnvelope d clock fresh_id request)


end EventProofs

/-! ## Concrete fixtures for the witnesses and counterexamples -/

/-- A network layer on which every command raises (connection failure). -/
def failingNet : List String → RedisNetResult := fun _ => .failure "connection error"

/-- Concrete Redis cache configuration for the counterexample. -/
def redisW : RedisPermissionCache := { pfx := "authz", ttl_ms := 300000 }

/-- Concrete cache key for the counterexample. -/
def keyW : PermissionCacheKey := ("u1", "user", "e1", "document:upload")

/-- Parent entity (an issuer). -/
def entP : Entity := { id := "p1", name := "parent", type := .issuer }

/-- Child entity (an offering under the issuer). -/
def entC : Entity := { id := "c1", name := "child", type := .offering, parent_id := some "p1" }

/-- Unrelated sibling entity. -/
def entS : Entity := { id := "s1", name := "sibling", type := .offering }

/-- A permission row. -/
def permW : Permission := { id := "perm1", action := "document:upload" }

/-- A role scoped to offerings granting the permission. -/
def roleW : Role :=
  { id := "r1", name := "issuer_admin", scope_types := ["offering"], permissions := [permW] }

/-- The principal's single assignment, at the parent entity. -/
def asgW : RoleAssignment :=
  { id := "a1", principal_id := "u1", role_id := "r1", entity_id := some "p1",
    effective_at := 5 }

/-- Concrete relational store for the witnesses. -/
def dbW : Db :=
  { entities := [entP, entC, entS], roles := [roleW], assignments := [asgW],
    auditLogs := [] }

/-- Concrete application state (empty cache). -/
def stW : AppState := { db := dbW, cache := {} }

/-- Clock for the authorization witnesses. -/
def clockW : Clock := { instant := 10, iso := "t" }

/-- Request targeting the child entity. -/
def payloadC : AuthorizationRequest :=
  { user_id := "u1", action := "document:upload", resource_id := "c1" }

/-- Request targeting the unrelated sibling. -/
def payloadS : AuthorizationRequest :=
  { user_id := "u1", action := "document:upload", resource_id := "s1" }

/-- Request targeting the parent itself (type outside the scope set). -/
def payloadP : AuthorizationRequest :=
  { user_id := "u1", action := "document:upload", resource_id := "p1" }

/-- Request targeting a nonexistent entity. -/
def payloadX : AuthorizationRequest :=
  { user_id := "u1", action := "document:upload", resource_id := "zz" }

/-- Assignment payload naming a nonexistent entity. -/
def asgPayloadW : RoleAssignmentCreate :=
  { principal_id := "u1", role_id := "r1", entity_id := some "zz" }

/-- Dispatcher whose transport is the no-op `NullEventPublisher`. -/
def dNull : EventDispatcher :=
  { publisher := NullEventPublisher, default_source := "platform_onboarding" }

/-- Dispatcher whose transport always raises. -/
def dFail : EventDispatcher :=
  { publisher := fun _ => .error "boom", default_source := "platform_onboarding" }

/-- A workflow orchestrator that accepts every event. -/
def orchNoop : PlatformEvent → Except String Unit := fun _ => .ok ()

/-- Clock for the event witnesses. -/
def clockE : Clock := { instant := 10, iso := "t" }

/-- Ingest request with a non-empty correlation id. -/
def reqC7 : EventIngestRequest :=
  { event_type := "evt.alpha", source := "srcA", correlation_id := some "corr-1" }

/-- Ingest request with the EMPTY-string correlation id. -/
def reqEmptyCorr : EventIngestRequest :=
  { event_type := "evt.alpha", source := "srcA", correlation_id := some "" }

/-- Ingest request with no correlation id. -/
def reqC9 : EventIngestRequest := { event_type := "evt.beta", source := "srcB" }

/-- Concrete audit events for the witnesses. -/
def evW1 : AuditEvent := { action := "a", occurred_at := "t", source := "s" }

/-- Concrete audit event with an idempotency key. -/
def evW2 : AuditEvent := { action := "b", occurred_at := "t", source := "s", event_id := some "E" }

/-! ## Digest shape lemmas -/

theorem hexChar_isHexDigit (n : Nat) : isHexDigitChar (hexChar n) = true := by
  unfold hexChar
  split <;> rfl

theorem foldl_processBlock_length :
    ∀ (blocks : List (List Nat)) (hv : List Nat), hv.length = 8 →
    (blocks.foldl Sha256.processBlock hv).length = 8
  | [], _, h => h
  | b :: bs, hv, _ => foldl_processBlock_length bs (Sha256.processBlock hv b) rfl

theorem sha256Words_length (msg : List Nat) : (Sha256.sha256Words msg).length = 8 :=
  foldl_processBlock_length _ Sha256.initH rfl

theorem length_eq_eight {α : Type} (l : List α) (h : l.length = 8) :
    ∃ a b c d e f g h8, l = [a, b, c, d, e, f, g, h8] := by
  rcases l with _ | ⟨a, _ | ⟨b, _ | ⟨c, _ | ⟨d, _ | ⟨e, _ | ⟨f, _ | ⟨g, _ | ⟨h8, _ | ⟨x, t⟩⟩⟩⟩⟩⟩⟩⟩⟩ <;>
    simp only [List.length_cons, List.length_nil] at h <;> try omega
  exact ⟨a, b, c, d, e, f, g, h8, rfl⟩

theorem hex8_length (x : Nat) : (Sha256.hex8 x).length = 8 := rfl

theorem hex8_isHex (x : Nat) : (Sha256.hex8 x).toList.all isHexDigitChar = true := by
  show ((List.range 8).map fun i => hexChar ((x >>> (4 * (7 - i))) % 16)).all isHexDigitChar = true
  refine List.all_eq_true.2 fun c hc => ?_
  rcases List.mem_map.1 hc with ⟨i, -, rfl⟩
  exact hexChar_isHexDigit _

theorem sha256hex_length (s : String) : (sha256hex s).length = 64 := by
  obtain ⟨a, b, c, d, e, f, g, h8, hw⟩ :=
    length_eq_eight _ (sha256Words_length (Sha256.utf8Bytes s))
  unfold sha256hex
  rw [hw]
  simp only [List.map_cons, List.map_nil, String.join, List.foldl_cons, List.foldl_nil,
    String.length_append, hex8_length]
  rfl

theorem sha256hex_isHex (s : String) : isHexString (sha256hex s) = true := by
  obtain ⟨a, b, c, d, e, f, g, h8, hw⟩ :=
    length_eq_eight _ (sha256Words_length (Sha256.utf8Bytes s))
  unfold sha256hex isHexString
  rw [hw]
  simp only [List.map_cons, List.map_nil, String.join, List.foldl_cons, List.foldl_nil]
  have happ : ∀ u v : String, (u ++ v).toList = u.toList ++ v.toList := by
    intro u v
    show (u ++ v).data = u.data ++ v.data
    exact String.data_append u v
  simp only [happ, List.all_append, hex8_isHex]
  rfl

/-! ## Hash-chain invariant lemmas -/

namespace AuditChain

open AuditService AuditVerifier

theorem chainFrom_foldl_tip : ∀ (l : List AuditLog) (s : Nat) (ph : String),
    chainFrom s ph l → ∀ m : AuditLog, m.sequence ≤ s →
    l.foldl tipStep (some m) = some (l.getLastD m)
  | [], _, _, _, _, _ => rfl
  | e :: rest, s, ph, h, m, hm => by
    obtain ⟨hseq, -, -, -, hrest⟩ := h
    have hstep : tipStep (some m) e = some e := by
      simp only [tipStep, if_pos (show m.sequence < e.sequence by omega)]
    rw [List.foldl_cons, hstep, List.getLastD_cons]
    exact chainFrom_foldl_tip rest (s + 1) e.entry_hash hrest e (by omega)

theorem chainFrom_getLastD_sequence : ∀ (l : List AuditLog) (s : Nat) (ph : String),
    chainFrom s ph l → ∀ d : AuditLog, d.sequence = s →
    (l.getLastD d).sequence = s + l.length
  | [], _, _, _, d, hd => by simpa using hd
  | e :: rest, s, ph, h, d, hd => by
    obtain ⟨hseq, -, -, -, hrest⟩ := h
    rw [List.getLastD_cons]
    have := chainFrom_getLastD_sequence rest (s + 1) e.entry_hash hrest e hseq
    simp only [List.length_cons]
    omega

theorem chainFrom_getLastD_hash : ∀ (l : List AuditLog) (s : Nat) (ph : String),
    chainFrom s ph l → ∀ d : AuditLog, d.entry_hash = ph →
    (l.getLastD d).entry_hash = tailHash ph l
  | [], _, _, _, d, hd => hd
  | e :: rest, s, ph, h, d, hd => by
    obtain ⟨-, -, -, -, hrest⟩ := h
    rw [List.getLastD_cons]
    exact chainFrom_getLastD_hash rest (s + 1) e.entry_hash hrest e rfl

theorem lock_chain_tip_eq (store : List AuditLog) (h : chainInv store) :
    lock_chain_tip store = (store.length, tailHash GENESIS_HASH store) := by
  cases store with
  | nil => rfl
  | cons e rest =>
    obtain ⟨hseq, hprev, -, -, hrest⟩ := h
    have hfold : (e :: rest).foldl tipStep none = some (rest.getLastD e) := by
      rw [List.foldl_cons]
      exact chainFrom_foldl_tip rest 1 e.entry_hash hrest e (le_of_eq hseq)
    unfold lock_chain_tip
    rw [hfold]
    have h1 := chainFrom_getLastD_sequence rest 1 e.entry_hash hrest e hseq
    have h2 := chainFrom_getLastD_hash rest 1 e.entry_hash hrest e rfl
    simp only [Prod.mk.injEq, List.length_cons, tailHash]
    exact ⟨by omega, h2⟩

theorem chainFrom_append : ∀ (l : List AuditLog) (s : Nat) (ph : String),
    chainFrom s ph l → ∀ e : AuditLog,
    e.sequence = s + l.length + 1 → e.previous_hash = tailHash ph l →
    e.hash_version = HASH_VERSION → entryHashOk e → chainFrom s ph (l ++ [e])
  | [], s, ph, _, e, h1, h2, h3, h4 => ⟨by simpa using h1, h2, h3, h4, trivial⟩
  | x :: rest, s, ph, h, e, h1, h2, h3, h4 => by
    obtain ⟨hs, hp, hv, he, hrest⟩ := h
    refine ⟨hs, hp, hv, he, ?_⟩
    refine chainFrom_append rest (s + 1) x.entry_hash hrest e ?_ h2 h3 h4
    simp only [List.length_cons] at h1
    omega

theorem record_event_fresh_eq (store : List AuditLog) (event : AuditEvent)
    (eid : Option String) :
    record_event_fresh store event eid =
      (freshEntry store event eid, store ++ [freshEntry store event eid]) := rfl

theorem freshEntry_hashOk (store : List AuditLog) (event : AuditEvent)
    (eid : Option String) : entryHashOk (freshEntry store event eid) := by
  simp only [entryHashOk, freshEntry, verifierPayload, recordPayload]

theorem chainInv_record_event_fresh (store : List AuditLog) (event : AuditEvent)
    (eid : Option String) (h : chainInv store) :
    chainInv (record_event_fresh store event eid).2 := by
  rw [record_event_fresh_eq]
  have htip := lock_chain_tip_eq store h
  refine chainFrom_append store 0 GENESIS_HASH h _ ?_ ?_ rfl (freshEntry_hashOk store event eid)
  · simp only [freshEntry, htip]
    omega
  · simp only [freshEntry, htip]

theorem chainInv_record_event (store : List AuditLog) (event : AuditEvent)
    (h : chainInv store) : chainInv (record_event store event).2 := by
  simp only [record_event]
  split
  · exact h
  · exact chainInv_record_event_fresh store event _ h

theorem chainInv_recordChain : ∀ (events : List AuditEvent) (store : List AuditLog),
    chainInv store → chainInv (recordChain events store)
  | [], store, h => h
  | e :: es, store, h =>
    chainInv_recordChain es (record_event store e).2 (chainInv_record_event store e h)

theorem chainInv_recordChain_nil (events : List AuditEvent) :
    chainInv (recordChain events []) :=
  chainInv_recordChain events [] trivial

theorem chainFrom_getD_sequence : ∀ (l : List AuditLog) (s : Nat) (ph : String),
    chainFrom s ph l → ∀ i : Nat, i < l.length →
    ((l.getD i dflAuditLog).sequence = s + i + 1)
  | [], _, _, _, i, hi => absurd hi (by simp)
  | e :: rest, s, ph, h, 0, _ => h.1
  | e :: rest, s, ph, h, i + 1, hi => by
    rw [List.getD_cons_succ]
    have := chainFrom_getD_sequence rest (s + 1) e.entry_hash h.2.2.2.2 i
      (by simpa using Nat.lt_of_succ_lt_succ hi)
    omega

theorem chainFrom_getD_prev : ∀ (l : List AuditLog) (s : Nat) (ph : String),
    chainFrom s ph l → ∀ i : Nat, i + 1 < l.length →
    (l.getD (i + 1) dflAuditLog).previous_hash = (l.getD i dflAuditLog).entry_hash
  | [], _, _, _, i, hi => absurd hi (by simp)
  | e :: rest, s, ph, h, 0, hi => by
    cases rest with
    | nil => simp at hi
    | cons e2 rest2 => exact h.2.2.2.2.2.1
  | e :: rest, s, ph, h, i + 1, hi => by
    rw [List.getD_cons_succ, List.getD_cons_succ]
    exact chainFrom_getD_prev rest (s + 1) e.entry_hash h.2.2.2.2 i
      (by simpa using Nat.lt_of_succ_lt_succ hi)

theorem chainFrom_getD_hashOk : ∀ (l : List AuditLog) (s : Nat) (ph : String),
    chainFrom s ph l → ∀ i : Nat, i < l.length →
    entryHashOk (l.getD i dflAuditLog)
  | [], _, _, _, i, hi => absurd hi (by simp)
  | e :: rest, s, ph, h, 0, _ => h.2.2.2.1
  | e :: rest, s, ph, h, i + 1, hi => by
    rw [List.getD_cons_succ]
    exact chainFrom_getD_hashOk rest (s + 1) e.entry_hash h.2.2.2.2 i
      (by simpa using Nat.lt_of_succ_lt_succ hi)

theorem chainFrom_getD_prevHash : ∀ (l : List AuditLog) (s : Nat) (ph : String),
    chainFrom s ph l → 0 < l.length → (l.getD 0 dflAuditLog).previous_hash = ph
  | e :: rest, _, _, h, _ => h.2.1

theorem chainFrom_mem_lt : ∀ (l : List AuditLog) (s : Nat) (ph : String),
    chainFrom s ph l → ∀ b ∈ l, s < b.sequence
  | e :: rest, s, ph, h, b, hb => by
    rw [List.mem_cons] at hb
    rcases hb with rfl | hb
    · have h1 := h.1
      omega
    · have := chainFrom_mem_lt rest (s + 1) e.entry_hash h.2.2.2.2 b hb
      omega

theorem chainFrom_sorted : ∀ (l : List AuditLog) (s : Nat) (ph : String),
    chainFrom s ph l →
    l.Sorted (fun a b : AuditLog => a.sequence ≤ b.sequence)
  | [], _, _, _ => List.sorted_nil
  | e :: rest, s, ph, h => by
    rw [List.sorted_cons]
    refine ⟨fun b hb => ?_, chainFrom_sorted rest (s + 1) e.entry_hash h.2.2.2.2⟩
    have h1 := h.1
    have := chainFrom_mem_lt rest (s + 1) e.entry_hash h.2.2.2.2 b hb
    omega

theorem filter_seqInRange_none (store : List AuditLog) :
    store.filter (seqInRange none none) = store := by
  have h : seqInRange none none = fun _ => true := rfl
  rw [h, List.filter_true]

theorem verifyWalk_ok : ∀ (l : List AuditLog) (s : Nat) (ph : String) (c : Nat),
    chainFrom s ph l → verifyWalk ph (some s) c l = .ok (c + l.length)
  | [], _, _, c, _ => by simp [verifyWalk]
  | e :: rest, s, ph, c, h => by
    obtain ⟨hseq, hprev, hv, he, hrest⟩ := h
    simp only [verifyWalk]
    rw [if_neg (by omega : ¬ e.sequence ≠ s + 1)]
    rw [if_neg ?_]
    · rw [verifyWalk_ok rest (s + 1) e.entry_hash (c + 1) hrest]
      simp only [List.length_cons]
      congr 1
      omega
    · have he2 : e.entry_hash =
          compute_entry_hash e.previous_hash
            (serialize_for_hash (verifierPayload e e.previous_hash)) := he
      rw [hprev] at he2
      rintro (hc | hc)
      · exact hc hprev
      · exact hc he2

theorem verifyWalk_none_eq (e : AuditLog) (rest : List AuditLog) (ph : String)
    (c s : Nat) (hseq : e.sequence = s + 1) :
    verifyWalk ph none c (e :: rest) = verifyWalk ph (some s) c (e :: rest) := by
  simp only [verifyWalk, hseq]

theorem verify_ok (store : List AuditLog) (h : chainInv store) :
    verify store none none =
      .ok ⟨store.length, min 1 store.length, store.length⟩ := by
  have hs := chainFrom_sorted store 0 GENESIS_HASH h
  unfold verify
  rw [filter_seqInRange_none store, hs.insertionSort_eq]
  cases store with
  | nil => rfl
  | cons e rest =>
    obtain ⟨hseq, hprev, hv, he, hrest⟩ := h
    simp only
    rw [verifyWalk_none_eq e rest GENESIS_HASH 0 0 hseq,
      verifyWalk_ok (e :: rest) 0 GENESIS_HASH 0 ⟨hseq, hprev, hv, he, hrest⟩]
    have hlast := chainFrom_getLastD_sequence rest 1 e.entry_hash hrest e hseq
    simp only [List.length_cons, Except.ok.injEq, VerificationResult.mk.injEq]
    refine ⟨by omega, by omega, by omega⟩

theorem modifyAt_map_sequence (f : AuditLog → AuditLog)
    (hf : ∀ e, (f e).sequence = e.sequence) :
    ∀ (l : List AuditLog) (i : Nat),
    (modifyAt l i f).map (fun e => e.sequence) = l.map (fun e => e.sequence)
  | [], _ => rfl
  | e :: rest, 0 => by simp [modifyAt, hf e]
  | e :: rest, i + 1 => by simp [modifyAt, modifyAt_map_sequence f hf rest i]

theorem sorted_modifyAt (f : AuditLog → AuditLog)
    (hf : ∀ e, (f e).sequence = e.sequence) (l : List AuditLog) (i : Nat)
    (hs : l.Sorted (fun a b : AuditLog => a.sequence ≤ b.sequence)) :
    (modifyAt l i f).Sorted (fun a b : AuditLog => a.sequence ≤ b.sequence) := by
  have h1 : ((modifyAt l i f).map (fun e => e.sequence)).Pairwise (· ≤ ·) := by
    rw [modifyAt_map_sequence f hf l i]
    exact List.Pairwise.map _ (fun a b hab => hab) hs
  have h2 := (List.pairwise_map).1 h1
  exact h2

theorem verifyWalk_mut_entry : ∀ (l : List AuditLog) (s : Nat) (ph : String)
    (c i : Nat) (h' : String), chainFrom s ph l → i < l.length →
    h' ≠ (l.getD i dflAuditLog).entry_hash →
    verifyWalk ph (some s) c (modifyAt l i (setEntryHash h')) =
      .error (hashMismatchMessage (l.getD i dflAuditLog).sequence
        (l.getD i dflAuditLog).entry_hash h')
  | [], _, _, _, i, _, _, hi, _ => absurd hi (by simp)
  | e :: rest, s, ph, c, 0, h', h, _, hne => by
    obtain ⟨hseq, hprev, hv, he, hrest⟩ := h
    have he2 : e.entry_hash =
        compute_entry_hash ph (serialize_for_hash (verifierPayload e ph)) := by
      have h0 : e.entry_hash =
          compute_entry_hash e.previous_hash
            (serialize_for_hash (verifierPayload e e.previous_hash)) := he
      rw [hprev] at h0
      exact h0
    have hpay : verifierPayload { e with entry_hash := h' } ph = verifierPayload e ph := rfl
    simp only [modifyAt, verifyWalk, setEntryHash]
    rw [if_neg (show ¬ ({ e with entry_hash := h' } : AuditLog).sequence ≠ s + 1 from by
      show ¬ e.sequence ≠ s + 1
      omega)]
    rw [if_pos (Or.inr (show ({ e with entry_hash := h' } : AuditLog).entry_hash ≠
        compute_entry_hash ph
          (serialize_for_hash (verifierPayload { e with entry_hash := h' } ph)) from by
      show h' ≠ compute_entry_hash ph
        (serialize_for_hash (verifierPayload { e with entry_hash := h' } ph))
      rw [hpay, ← he2]
      simpa using hne))]
    rw [hpay, ← he2]
    rfl
  | e :: rest, s, ph, c, i + 1, h', h, hi, hne => by
    obtain ⟨hseq, hprev, hv, he, hrest⟩ := h
    have he2 : e.entry_hash =
        compute_entry_hash ph (serialize_for_hash (verifierPayload e ph)) := by
      have h0 : e.entry_hash =
          compute_entry_hash e.previous_hash
            (serialize_for_hash (verifierPayload e e.previous_hash)) := he
      rw [hprev] at h0
      exact h0
    simp only [modifyAt, verifyWalk, List.getD_cons_succ] at hne ⊢
    rw [if_neg (by omega : ¬ e.sequence ≠ s + 1)]
    rw [if_neg (by
      rintro (hc | hc)
      · exact hc hprev
      · exact hc he2)]
    exact verifyWalk_mut_entry rest (s + 1) e.entry_hash (c + 1) i h' hrest
      (by simpa using Nat.lt_of_succ_lt_succ hi) hne

theorem verifyWalk_mut_prev : ∀ (l : List AuditLog) (s : Nat) (ph : String)
    (c i : Nat) (p' : String), chainFrom s ph l → i < l.length →
    p' ≠ (l.getD i dflAuditLog).previous_hash →
    verifyWalk ph (some s) c (modifyAt l i (setPreviousHash p')) =
      .error (hashMismatchMessage (l.getD i dflAuditLog).sequence
        (l.getD i dflAuditLog).entry_hash (l.getD i dflAuditLog).entry_hash)
  | [], _, _, _, i, _, _, hi, _ => absurd hi (by simp)
  | e :: rest, s, ph, c, 0, p', h, _, hne => by
    obtain ⟨hseq, hprev, hv, he, hrest⟩ := h
    have he2 : e.entry_hash =
        compute_entry_hash ph (serialize_for_hash (verifierPayload e ph)) := by
      have h0 : e.entry_hash =
          compute_entry_hash e.previous_hash
            (serialize_for_hash (verifierPayload e e.previous_hash)) := he
      rw [hprev] at h0
      exact h0
    have hpay : verifierPayload { e with previous_hash := p' } ph = verifierPayload e ph := rfl
    simp only [modifyAt, verifyWalk, setPreviousHash]
    rw [if_neg (show ¬ ({ e with previous_hash := p' } : AuditLog).sequence ≠ s + 1 from by
      show ¬ e.sequence ≠ s + 1
      omega)]
    rw [if_pos (Or.inl (show ({ e with previous_hash := p' } : AuditLog).previous_hash ≠ ph from by
      show p' ≠ ph
      rw [← hprev]
      simpa using hne))]
    rw [hpay, ← he2]
    rfl
  | e :: rest, s, ph, c, i + 1, p', h, hi, hne => by
    obtain ⟨hseq, hprev, hv, he, hrest⟩ := h
    have he2 : e.entry_hash =
        compute_entry_hash ph (serialize_for_hash (verifierPayload e ph)) := by
      have h0 : e.entry_hash =
          compute_entry_hash e.previous_hash
            (serialize_for_hash (verifierPayload e e.previous_hash)) := he
      rw [hprev] at h0
      exact h0
    simp only [modifyAt, verifyWalk, List.getD_cons_succ] at hne ⊢
    rw [if_neg (by omega : ¬ e.sequence ≠ s + 1)]
    rw [if_neg (by
      rintro (hc | hc)
      · exact hc hprev
      · exact hc he2)]
    exact verifyWalk_mut_prev rest (s + 1) e.entry_hash (c + 1) i p' hrest
      (by simpa using Nat.lt_of_succ_lt_succ hi) hne

theorem verify_mut_entry (store : List AuditLog) (h : chainInv store) (i : Nat)
    (h' : String) (hi : i < store.length)
    (hne : h' ≠ (store.getD i dflAuditLog).entry_hash) :
    verify (modifyAt store i (setEntryHash h')) none none =
      .error (hashMismatchMessage (store.getD i dflAuditLog).sequence
        (store.getD i dflAuditLog).entry_hash h') := by
  have hs := sorted_modifyAt (setEntryHash h') (fun _ => rfl) store i
    (chainFrom_sorted store 0 GENESIS_HASH h)
  unfold verify
  rw [filter_seqInRange_none, hs.insertionSort_eq]
  cases store with
  | nil => simp at hi
  | cons e rest =>
    have hw := verifyWalk_mut_entry (e :: rest) 0 GENESIS_HASH 0 i h' h hi hne
    cases i with
    | zero =>
      simp only [modifyAt] at hw ⊢
      rw [verifyWalk_none_eq (setEntryHash h' e) rest GENESIS_HASH 0 0 h.1, hw]
    | succ j =>
      simp only [modifyAt] at hw ⊢
      rw [verifyWalk_none_eq e (modifyAt rest j (setEntryHash h')) GENESIS_HASH 0 0 h.1, hw]

theorem verify_mut_prev (store : List AuditLog) (h : chainInv store) (i : Nat)
    (p' : String) (hi : i < store.length)
    (hne : p' ≠ (store.getD i dflAuditLog).previous_hash) :
    verify (modifyAt store i (setPreviousHash p')) none none =
      .error (hashMismatchMessage (store.getD i dflAuditLog).sequence
        (store.getD i dflAuditLog).entry_hash (store.getD i dflAuditLog).entry_hash) := by
  have hs := sorted_modifyAt (setPreviousHash p') (fun _ => rfl) store i
    (chainFrom_sorted store 0 GENESIS_HASH h)
  unfold verify
  rw [filter_seqInRange_none, hs.insertionSort_eq]
  cases store with
  | nil => simp at hi
  | cons e rest =>
    have hw := verifyWalk_mut_prev (e :: rest) 0 GENESIS_HASH 0 i p' h hi hne
    cases i with
    | zero =>
      simp only [modifyAt] at hw ⊢
      rw [verifyWalk_none_eq (setPreviousHash p' e) rest GENESIS_HASH 0 0 h.1, hw]
    | succ j =>
      simp only [modifyAt] at hw ⊢
      rw [verifyWalk_none_eq e (modifyAt rest j (setPreviousHash p')) GENESIS_HASH 0 0 h.1, hw]

end AuditChain


/-! ## Idempotent recording lemmas -/

namespace AuditChain

open AuditService AuditVerifier

theorem record_event_found (store : List AuditLog) (event : AuditEvent) (X : String)
    (he : eventIdStr event = some X) (ex : AuditLog)
    (hfind : store.find? (fun a => a.event_id == some X) = some ex) :
    record_event store event = (ex, store) := by
  simp only [record_event, he, hfind]

theorem record_event_not_found (store : List AuditLog) (event : AuditEvent) (X : String)
    (he : eventIdStr event = some X)
    (hfind : store.find? (fun a => a.event_id == some X) = none) :
    record_event store event = record_event_fresh store event (some X) := by
  simp only [record_event, he, hfind]

end AuditChain

/-! ## Authorization evaluation lemmas -/

namespace AuthzProofs

open AuthorizationService

theorem authorize_notFound (st : AppState) (clock : Clock)
    (payload : AuthorizationRequest)
    (hent : st.db.entities.find? (fun e => e.id == payload.resource_id) = none) :
    authorize st clock payload =
      (.error (.entityNotFound ("Entity " ++ payload.resource_id ++ " not found")), st) := by
  simp only [authorize, hent]

theorem authorize_hit (st : AppState) (clock : Clock) (payload : AuthorizationRequest)
    (ent : Entity) (cached : Bool)
    (hent : st.db.entities.find? (fun e => e.id == payload.resource_id) = some ent)
    (hhit : st.cache.get
      (payload.user_id, payload.principal_type, payload.resource_id, payload.action) =
        some cached) :
    authorize st clock payload = (.ok cached, st) := by
  simp only [authorize, hent, hhit]

theorem authorize_miss (st : AppState) (clock : Clock) (payload : AuthorizationRequest)
    (ent : Entity)
    (hent : st.db.entities.find? (fun e => e.id == payload.resource_id) = some ent)
    (hmiss : st.cache.get
      (payload.user_id, payload.principal_type, payload.resource_id, payload.action) =
        none) :
    authorize st clock payload =
      (.ok (authzEval st clock payload ent),
       { db := { st.db with
           auditLogs := (AuditService.record st.db.auditLogs clock "authorization.evaluate"
             (some payload.user_id) (some ent.id) (some ent.type.value)
             [("action", Json.str payload.action),
              ("principal_type", Json.str payload.principal_type),
              ("authorized", Json.bool (authzEval st clock payload ent))]).2 }
         cache := st.cache.set
           (payload.user_id, payload.principal_type, payload.resource_id, payload.action)
           (authzEval st clock payload ent) payload.user_id }) := by
  simp only [authorize, hent, hmiss, authzEval]

theorem candidateMap_none_of_principal_ne (db : Db) (payload : AuthorizationRequest)
    (now : Nat) (lineage : List Uuid) (a : RoleAssignment)
    (hne : ¬ a.principal_id = payload.user_id) :
    candidateMap db payload now lineage a = none := by
  unfold candidateMap
  cases hfr : db.roles.find? (fun r => r.id == a.role_id) with
  | none => rfl
  | some r =>
    show (if (assignmentMatches payload now lineage a && roleGrants r payload.action) = true
      then some (a, r) else none) = none
    rw [if_neg]
    simp only [assignmentMatches, Bool.and_eq_true, beq_iff_eq, not_and]
    intro hc
    exact absurd hc.1.1.1.1 hne

theorem candidateRows_all_eq (db : Db) (payload : AuthorizationRequest) (now : Nat)
    (lineage : List Uuid) (A : RoleAssignment) (R : Role)
    (hR : db.roles.find? (fun r => r.id == A.role_id) = some R)
    (honly : ∀ a ∈ db.assignments, a.principal_id = payload.user_id → a = A) :
    ∀ pr ∈ candidateRows db payload now lineage, pr = (A, R) := by
  intro pr hpr
  rcases List.mem_filterMap.1 hpr with ⟨a, ha, hfa⟩
  unfold candidateMap at hfa
  cases hfr : db.roles.find? (fun r => r.id == a.role_id) with
  | none => rw [hfr] at hfa; cases hfa
  | some r =>
    rw [hfr] at hfa
    have hfa2 : (if (assignmentMatches payload now lineage a &&
        roleGrants r payload.action) = true then some (a, r) else none) = some pr := hfa
    by_cases hc : (assignmentMatches payload now lineage a &&
        roleGrants r payload.action) = true
    · rw [if_pos hc] at hfa2
      have hprin : a.principal_id = payload.user_id := by
        simp only [assignmentMatches, Bool.and_eq_true, beq_iff_eq] at hc
        exact hc.1.1.1.1.1
      have haA : a = A := honly a ha hprin
      subst haA
      rw [hR] at hfr
      cases hfr
      cases hfa2
      rfl
    · rw [if_neg hc] at hfa2
      cases hfa2

theorem candidateRows_mem (db : Db) (payload : AuthorizationRequest) (now : Nat)
    (lineage : List Uuid) (A : RoleAssignment) (R : Role)
    (hR : db.roles.find? (fun r => r.id == A.role_id) = some R)
    (hmem : A ∈ db.assignments)
    (hmatch : assignmentMatches payload now lineage A = true)
    (hgrant : roleGrants R payload.action = true) :
    (A, R) ∈ candidateRows db payload now lineage := by
  refine List.mem_filterMap.2 ⟨A, hmem, ?_⟩
  unfold candidateMap
  rw [hR]
  show (if (assignmentMatches payload now lineage A && roleGrants R payload.action) = true
    then some (A, R) else none) = some (A, R)
  rw [if_pos (by rw [hmatch, hgrant]; rfl : (assignmentMatches payload now lineage A &&
    roleGrants R payload.action) = true)]

theorem candidateRows_nil_of_lineage_miss (db : Db) (payload : AuthorizationRequest)
    (now : Nat) (lineage : List Uuid) (A : RoleAssignment) (P : Uuid)
    (hAent : A.entity_id = some P) (hnlin : ¬ P ∈ lineage)
    (honly : ∀ a ∈ db.assignments, a.principal_id = payload.user_id → a = A) :
    candidateRows db payload now lineage = [] := by
  refine List.filterMap_eq_nil_iff.2 (fun a ha => ?_)
  by_cases hap : a.principal_id = payload.user_id
  · have haA := honly a ha hap
    subst haA
    unfold candidateMap
    cases hfr : db.roles.find? (fun r => r.id == a.role_id) with
    | none => rfl
    | some r =>
      show (if (assignmentMatches payload now lineage a && roleGrants r payload.action) = true
        then some (a, r) else none) = none
      rw [if_neg]
      simp only [assignmentMatches, hAent, Bool.and_eq_true, not_and]
      intro h1 h2
      have : lineage.contains P = true := h1.2
      exact absurd (List.mem_of_elem_eq_true this) hnlin
  · exact candidateMap_none_of_principal_ne db payload now lineage a hap

end AuthzProofs

/-! ## Claim theorems: authorization -/

open AuthorizationService AuthzProofs in
/-- C8: `authorize` raises `EntityNotFoundError` when the resource
entity does not exist, returning with the state untouched (no lineage
walk result, cache write, assignment query, or audit entry is
produced); when the resource exists the call returns a boolean. -/
theorem claim_C8_authorize_missing_entity (st : AppState) (clock : Clock)
    (payload : AuthorizationRequest) :
    (st.db.entities.find? (fun e => e.id == payload.resource_id) = none →
      authorize st clock payload =
        (.error (.entityNotFound ("Entity " ++ payload.resource_id ++ " not found")), st)) ∧
    (∀ ent, st.db.entities.find? (fun e => e.id == payload.resource_id) = some ent →
      ∃ b st2, authorize st clock payload = (.ok b, st2)) := by
  refine ⟨fun hent => authorize_notFound st clock payload hent, fun ent hent => ?_⟩
  cases hc : st.cache.get
      (payload.user_id, payload.principal_type, payload.resource_id, payload.action) with
  | some cached => exact ⟨cached, st, authorize_hit st clock payload ent cached hent hc⟩
  | none => exact ⟨_, _, authorize_miss st clock payload ent hent hc⟩

open AuthorizationService AuthzProofs in
/-- C4: with a non-globally-scoped role (non-empty `scope_types`)
granting the action, assigned to the principal at entity `P`, and no
other assignment rows for that principal: `authorize` grants at every
resource whose lineage contains `P` and whose own type is in the role's
`scope_types`; it denies at a resource whose lineage does not contain
`P` (an unrelated sibling); and the assignment is inapplicable — so the
call denies — when the resource's own type is not in `scope_types`. -/
theorem claim_C4_scope_inheritance (st : AppState) (clock : Clock)
    (payload : AuthorizationRequest) (P : Uuid) (A : RoleAssignment) (R : Role)
    (ent : Entity)
    (hent : st.db.entities.find? (fun e => e.id == payload.resource_id) = some ent)
    (hmiss : st.cache.get
      (payload.user_id, payload.principal_type, payload.resource_id, payload.action) = none)
    (hR : st.db.roles.find? (fun r => r.id == A.role_id) = some R)
    (hscope : R.scope_types ≠ [])
    (hgrant : roleGrants R payload.action = true)
    (hAent : A.entity_id = some P)
    (hprin1 : A.principal_id = payload.user_id)
    (hprin2 : A.principal_type = payload.principal_type)
    (heff : A.effective_at ≤ clock.instant)
    (hexp : ∀ t, A.expires_at = some t → clock.instant < t)
    (honly : ∀ a ∈ st.db.assignments, a.principal_id = payload.user_id → a = A) :
    (A ∈ st.db.assignments →
      P ∈ collect_entity_lineage_ids st.db ent.id →
      ent.type.value ∈ R.scope_types →
      (authorize st clock payload).1 = .ok true) ∧
    (¬ P ∈ collect_entity_lineage_ids st.db ent.id →
      (authorize st clock payload).1 = .ok false) ∧
    (¬ ent.type.value ∈ R.scope_types →
      (authorize st clock payload).1 = .ok false) := by
  have hfst : (authorize st clock payload).1 = .ok (authzEval st clock payload ent) := by
    rw [authorize_miss st clock payload ent hent hmiss]
  refine ⟨fun hmem hlin htype => ?_, fun hnlin => ?_, fun hntype => ?_⟩
  · rw [hfst]
    have hmatch : assignmentMatches payload clock.instant
        (collect_entity_lineage_ids st.db ent.id) A = true := by
      unfold assignmentMatches
      rw [hprin1, hprin2, hAent]
      simp only [beq_self_eq_true, Bool.true_and, Bool.and_eq_true, decide_eq_true_eq]
      refine ⟨⟨heff, ?_⟩, List.elem_eq_true_of_mem hlin⟩
      cases hx : A.expires_at with
      | none => rfl
      | some t => simpa using hexp t hx
    have hany : authzEval st clock payload ent = true := by
      refine List.any_eq_true.2
        ⟨(A, R), candidateRows_mem st.db payload clock.instant _ A R hR hmem hmatch hgrant, ?_⟩
      simp only [Bool.or_eq_true]
      exact Or.inr (List.elem_eq_true_of_mem htype)
    rw [hany]
  · rw [hfst]
    have hnil := candidateRows_nil_of_lineage_miss st.db payload clock.instant
      (collect_entity_lineage_ids st.db ent.id) A P hAent hnlin honly
    unfold authzEval
    rw [hnil]
    rfl
  · rw [hfst]
    have hall := candidateRows_all_eq st.db payload clock.instant
      (collect_entity_lineage_ids st.db ent.id) A R hR honly
    have hfalse : authzEval st clock payload ent = false := by
      unfold authzEval
      refine List.any_eq_false.2 (fun x hx => ?_)
      rcases hall x hx with rfl
      simp only [Bool.or_eq_true, not_or]
      refine ⟨?_, ?_⟩
      · simp only [List.isEmpty_iff]
        exact hscope
      · intro hcon
        exact hntype (List.mem_of_elem_eq_true hcon)
    rw [hfalse]

/-! ## Cache invalidation lemmas -/

namespace CacheProofs

open InMemoryPermissionCache

theorem indexAdd_find (idx : List (String × List PermissionCacheKey)) (p : String)
    (k : PermissionCacheKey) :
    ∃ ks, (indexAdd idx p k).find? (fun e => e.1 == p) = some (p, ks) ∧ k ∈ ks := by
  induction idx with
  | nil =>
    refine ⟨[k], ?_, List.mem_singleton.2 rfl⟩
    simp [indexAdd, List.find?]
  | cons hd rest ih =>
    rcases hd with ⟨q, ks⟩
    by_cases hqp : q = p
    · subst hqp
      refine ⟨if k ∈ ks then ks else k :: ks, ?_, ?_⟩
      · simp [indexAdd, List.find?]
      · by_cases hin : k ∈ ks
        · simpa [hin] using hin
        · simp [hin]
    · rcases ih with ⟨ks2, hfind, hmem⟩
      refine ⟨ks2, ?_, hmem⟩
      rw [show indexAdd ((q, ks) :: rest) p k = (q, ks) :: indexAdd rest p k from by
        simp [indexAdd, hqp]]
      rw [List.find?_cons_of_neg, hfind]
      simp [hqp]

theorem find?_filter_mem_keys (l : List (PermissionCacheKey × Bool))
    (keys : List PermissionCacheKey) (k : PermissionCacheKey) (hk : k ∈ keys) :
    (l.filter (fun kv => ¬ kv.1 ∈ keys)).find? (fun kv => kv.1 == k) = none := by
  induction l with
  | nil => rfl
  | cons kv rest ih =>
    by_cases hin : kv.1 ∈ keys
    · rw [show (kv :: rest).filter (fun kv => ¬ kv.1 ∈ keys) =
          rest.filter (fun kv => ¬ kv.1 ∈ keys) from by simp [List.filter_cons, hin]]
      exact ih
    · rw [show (kv :: rest).filter (fun kv => ¬ kv.1 ∈ keys) =
          kv :: rest.filter (fun kv => ¬ kv.1 ∈ keys) from by simp [List.filter_cons, hin]]
      rw [List.find?_cons_of_neg, ih]
      simp only [beq_iff_eq]
      intro heq
      exact hin (heq ▸ hk)

theorem cache_get_invalidate_set (c : InMemoryPermissionCache)
    (k : PermissionCacheKey) (v : Bool) (p : String) :
    ((c.set k v p).invalidate_for_principal p).get k = none := by
  obtain ⟨ks, hfind, hmem⟩ := indexAdd_find c.principal_index p k
  unfold InMemoryPermissionCache.get InMemoryPermissionCache.invalidate_for_principal
    InMemoryPermissionCache.set
  simp only [hfind, Option.map, Option.getD]
  rw [find?_filter_mem_keys _ ks k hmem]

end CacheProofs

/-! ## Role service lemmas -/

namespace RoleProofs

open RoleService

theorem revoke_found_assignments (st : AppState) (clock : Clock) (A : RoleAssignment)
    (actor : Option Uuid)
    (hfind : st.db.assignments.find? (fun a => a.id == A.id) = some A) :
    ((revoke_assignment st clock A.id actor).2).db.assignments =
      st.db.assignments.filter (fun a => ¬ a.id = A.id) := by
  simp only [revoke_assignment, hfind]

theorem revoke_found_entities (st : AppState) (clock : Clock) (A : RoleAssignment)
    (actor : Option Uuid)
    (hfind : st.db.assignments.find? (fun a => a.id == A.id) = some A) :
    ((revoke_assignment st clock A.id actor).2).db.entities = st.db.entities := by
  simp only [revoke_assignment, hfind]

theorem revoke_found_cache (st : AppState) (clock : Clock) (A : RoleAssignment)
    (actor : Option Uuid)
    (hfind : st.db.assignments.find? (fun a => a.id == A.id) = some A) :
    ((revoke_assignment st clock A.id actor).2).cache =
      st.cache.invalidate_for_principal A.principal_id := by
  simp only [revoke_assignment, hfind]

end RoleProofs

/-! ## Authorization state projections -/

namespace AuthzProofs

open AuthorizationService

theorem authorize_miss_assignments (st : AppState) (clock : Clock)
    (payload : AuthorizationRequest) (ent : Entity)
    (hent : st.db.entities.find? (fun e => e.id == payload.resource_id) = some ent)
    (hmiss : st.cache.get
      (payload.user_id, payload.principal_type, payload.resource_id, payload.action) =
        none) :
    ((authorize st clock payload).2).db.assignments = st.db.assignments := by
  rw [authorize_miss st clock payload ent hent hmiss]

theorem authorize_miss_entities (st : AppState) (clock : Clock)
    (payload : AuthorizationRequest) (ent : Entity)
    (hent : st.db.entities.find? (fun e => e.id == payload.resource_id) = some ent)
    (hmiss : st.cache.get
      (payload.user_id, payload.principal_type, payload.resource_id, payload.action) =
        none) :
    ((authorize st clock payload).2).db.entities = st.db.entities := by
  rw [authorize_miss st clock payload ent hent hmiss]

theorem authorize_miss_cache (st : AppState) (clock : Clock)
    (payload : AuthorizationRequest) (ent : Entity)
    (hent : st.db.entities.find? (fun e => e.id == payload.resource_id) = some ent)
    (hmiss : st.cache.get
      (payload.user_id, payload.principal_type, payload.resource_id, payload.action) =
        none) :
    ((authorize st clock payload).2).cache =
      st.cache.set
        (payload.user_id, payload.principal_type, payload.resource_id, payload.action)
        (authzEval st clock payload ent) payload.user_id := by
  rw [authorize_miss st clock payload ent hent hmiss]

end AuthzProofs

/-! ## Claim theorems: cache and role revocation -/

open AuthorizationService RoleService AuthzProofs RoleProofs CacheProofs in
/-- C5: after `authorize` returned `true` on a cache miss (populating
the cache for the principal), revoking the assignment that backed the
grant — the principal's only assignment — invalidates that principal's
cached keys and deletes the row, so the next `authorize` call with the
same arguments re-evaluates and returns `false`: the cached `true`
decision never survives the revoke. -/
theorem claim_C5_revoke_not_masked_by_cache (st0 : AppState)
    (clock1 clock2 clock3 : Clock) (payload : AuthorizationRequest)
    (A : RoleAssignment) (ent : Entity) (actor : Option Uuid)
    (hent : st0.db.entities.find? (fun e => e.id == payload.resource_id) = some ent)
    (hmiss : st0.cache.get
      (payload.user_id, payload.principal_type, payload.resource_id, payload.action) =
        none)
    (hAp : A.principal_id = payload.user_id)
    (hAfind : st0.db.assignments.find? (fun a => a.id == A.id) = some A)
    (honly : ∀ a ∈ st0.db.assignments, a.principal_id = payload.user_id → a.id = A.id)
    (hauth1 : (authorize st0 clock1 payload).1 = .ok true) :
    (authorize ((revoke_assignment (authorize st0 clock1 payload).2 clock2 A.id actor).2)
      clock3 payload).1 = .ok false := by
  have h1a := authorize_miss_assignments st0 clock1 payload ent hent hmiss
  have h1e := authorize_miss_entities st0 clock1 payload ent hent hmiss
  have h1c := authorize_miss_cache st0 clock1 payload ent hent hmiss
  have hAfind1 : ((authorize st0 clock1 payload).2).db.assignments.find?
      (fun a => a.id == A.id) = some A := by
    rw [h1a]
    exact hAfind
  have h2a := revoke_found_assignments _ clock2 A actor hAfind1
  have h2e := revoke_found_entities _ clock2 A actor hAfind1
  have h2c := revoke_found_cache _ clock2 A actor hAfind1
  have hent2 : ((revoke_assignment (authorize st0 clock1 payload).2 clock2 A.id
      actor).2).db.entities.find? (fun e => e.id == payload.resource_id) = some ent := by
    rw [h2e, h1e]
    exact hent
  have hmiss2 : ((revoke_assignment (authorize st0 clock1 payload).2 clock2 A.id
      actor).2).cache.get
      (payload.user_id, payload.principal_type, payload.resource_id, payload.action) =
        none := by
    rw [h2c, h1c, hAp]
    exact cache_get_invalidate_set st0.cache _ _ payload.user_id
  rw [authorize_miss _ clock3 payload ent hent2 hmiss2]
  have hnil : candidateRows ((revoke_assignment (authorize st0 clock1 payload).2 clock2
      A.id actor).2).db payload clock3.instant
      (collect_entity_lineage_ids ((revoke_assignment (authorize st0 clock1 payload).2
        clock2 A.id actor).2).db ent.id) = [] := by
    refine List.filterMap_eq_nil_iff.2 (fun a ha => ?_)
    rw [h2a, h1a] at ha
    have hmem2 := List.mem_filter.1 ha
    have hne : ¬ a.principal_id = payload.user_id := by
      intro hap
      have hid := honly a hmem2.1 hap
      have hdec := hmem2.2
      simp only [decide_eq_true_eq] at hdec
      exact hdec hid
    exact candidateMap_none_of_principal_ne _ payload _ _ a hne
  have heval : authzEval ((revoke_assignment (authorize st0 clock1 payload).2 clock2
      A.id actor).2) clock3 payload ent = false := by
    unfold authzEval
    rw [hnil]
    rfl
  rw [heval]

open RoleService in
/-- C10: `assign_role` with a supplied `entity_id` that names no
existing entity raises `PermissionScopeError` — the same error class the
scope-type mismatch uses, and a different class from
`RoleNotFoundError` — and returns with the state untouched: no
assignment row, audit entry, or cache invalidation is produced. -/
theorem claim_C10_assign_role_missing_entity (st : AppState) (clock : Clock)
    (payload : RoleAssignmentCreate) (actor_id : Option Uuid) (new_id : Uuid)
    (role : Role) (eid : Uuid)
    (hrole : getRole st.db payload.role_id = some role)
    (heid : payload.entity_id = some eid)
    (hent : st.db.entities.find? (fun e => e.id == eid) = none) :
    assign_role st clock payload actor_id new_id =
      (.error (.permissionScope ("Entity " ++ eid ++ " not found for assignment")), st) ∧
    ∀ m m2, RoleServiceError.permissionScope m ≠ RoleServiceError.roleNotFound m2 := by
  refine ⟨?_, fun m m2 h => RoleServiceError.noConfusion h⟩
  simp only [assign_role, hrole, heid, hent]

/-! ## Claim theorems: remote cache failure -/

/-- C6, counterexample: on a network failure, `RedisPermissionCache.get`
does not return a miss (`.ok none`) — `_execute` has no exception
handler, so the failure escapes the call. -/
theorem claim_C6_counterexample :
    RedisPermissionCache.get redisW failingNet keyW ≠ .ok none := by
  decide

open RedisPermissionCache in
/-- C6, amended: a network failure on the remote backend propagates out
of `RedisPermissionCache.get` as the transport error (there is no
`try`/`except` in `_execute` or `get`, and `raise_for_status` likewise
raises on HTTP error statuses); the cache call therefore surfaces the
failure to its caller instead of degrading to a miss. -/
theorem claim_C6_redis_failure_propagates (c : RedisPermissionCache)
    (net : List String → RedisNetResult) (key : PermissionCacheKey) (msg : String)
    (hfail : net ["GET", c.perm_key key] = .failure msg) :
    RedisPermissionCache.get c net key = .error (.network msg) := by
  simp only [RedisPermissionCache.get, RedisPermissionCache.execute, hfail]

/-- Witness for the amended C6 at the concrete failing network. -/
theorem claim_C6_witness :
    RedisPermissionCache.get redisW failingNet keyW =
      .error (.network "connection error") :=
  claim_C6_redis_failure_propagates redisW failingNet keyW "connection error" rfl

/-! ## Event ingestion lemmas -/

namespace EventProofs

open EventService EventDispatcher

theorem ingest_fresh (d : EventDispatcher) (orch : PlatformEvent → Except String Unit)
    (events : List PlatformEvent) (clock : Clock) (fresh_id : Uuid)
    (request : EventIngestRequest)
    (hdedup : ingestDedup events request = none) :
    ingest d orch events clock fresh_id request =
      match d.publisher (ingestEnvelope d clock fresh_id request) with
      | .error _ =>
          { result := .error (.eventServiceError "Failed to publish event")
            events := events ++ [ingestRecord d clock fresh_id request]
            published := [ingestEnvelope d clock fresh_id request]
            dispatched := [] }
      | .ok _ =>
          { result := .ok (ingestRecord d clock fresh_id request)
            events := events ++ [ingestRecord d clock fresh_id request]
            published := [ingestEnvelope d clock fresh_id request]
            dispatched := [ingestRecord d clock fresh_id request] } := by
  simp only [ingest, hdedup, publish_event, ingestEnvelope, ingestRecord]
  cases d.publisher (buildEnvelope d clock fresh_id request.event_type request.payload
    (some request.source) request.correlation_id
    (some (request.occurred_at.getD clock.iso)) request.schema_version
    (some request.context)) <;> rfl

theorem ingest_hit (d : EventDispatcher) (orch : PlatformEvent → Except String Unit)
    (events : List PlatformEvent) (clock : Clock) (fresh_id : Uuid)
    (request : EventIngestRequest) (ex : PlatformEvent)
    (hdedup : ingestDedup events request = some ex) :
    ingest d orch events clock fresh_id request =
      { result := .ok ex, events := events, published := [], dispatched := [] } := by
  simp only [ingest, hdedup]

theorem ingest_fresh_events (d : EventDispatcher) (orch : PlatformEvent → Except String Unit)
    (events : List PlatformEvent) (clock : Clock) (fresh_id : Uuid)
    (request : EventIngestRequest)
    (hdedup : ingestDedup events request = none) :
    (ingest d orch events clock fresh_id request).events =
      events ++ [ingestRecord d clock fresh_id request] := by
  rw [ingest_fresh d orch events clock fresh_id request hdedup]
  cases d.publisher (ingestEnvelope d clock fresh_id request) <;> rfl

theorem ingestRecord_matches (d : EventDispatcher) (clock : Clock) (fresh_id : Uuid)
    (request : EventIngestRequest) (c : String) (hc : request.correlation_id = some c) :
    ((ingestRecord d clock fresh_id request).source == request.source &&
      (ingestRecord d clock fresh_id request).correlation_id == some c) = true := by
  simp only [ingestRecord, ingestEnvelope, buildRecord, buildEnvelope, hc]
  simp

end EventProofs

/-! ## Claim theorems: event ingestion -/

open EventService EventProofs in
/-- C7, counterexample: the claim fails for the non-null correlation id
`""`.  The dedup guard is the Python truthiness test
`if request.correlation_id:`, which an empty string fails, so a second
`ingest` with the same `(source, "")` persists a second row with a fresh
`event_id` instead of returning the first row. -/
theorem claim_C7_counterexample :
    ((ingest dNull orchNoop (ingest dNull orchNoop [] clockE "id1" reqEmptyCorr).events
        clockE "id2" reqEmptyCorr).events.map (fun ev => ev.event_id)) =
      ["id1", "id2"] := by
  rfl

open EventService EventProofs in
/-- C7, amended: for every pair of `ingest` calls with the same non-null
and NON-EMPTY `correlation_id` and the same source (starting from a
store with no row for that pair), the second call returns the row
persisted by the first call unchanged — same `event_id` — leaves the
store unchanged with exactly one row for `(source, correlation_id)`, and
performs no new publish or workflow dispatch. -/
theorem claim_C7_ingest_dedup (d : EventDispatcher)
    (orch : PlatformEvent → Except String Unit) (events0 : List PlatformEvent)
    (clock1 clock2 : Clock) (id1 id2 : Uuid) (request : EventIngestRequest) (c : String)
    (hc : request.correlation_id = some c) (hcne : c ≠ "")
    (hnone : events0.find? (fun ev => ev.source == request.source &&
      ev.correlation_id == some c) = none) :
    (∀ r1, (ingest d orch events0 clock1 id1 request).result = .ok r1 →
      (ingest d orch (ingest d orch events0 clock1 id1 request).events clock2 id2
        request).result = .ok r1) ∧
    (ingest d orch (ingest d orch events0 clock1 id1 request).events clock2 id2
      request).events = (ingest d orch events0 clock1 id1 request).events ∧
    ((ingest d orch events0 clock1 id1 request).events.filter
      (fun ev => ev.source == request.source && ev.correlation_id == some c)).length =
        1 ∧
    (ingest d orch (ingest d orch events0 clock1 id1 request).events clock2 id2
      request).published = [] ∧
    (ingest d orch (ingest d orch events0 clock1 id1 request).events clock2 id2
      request).dispatched = [] := by
  have hdedup0 : ingestDedup events0 request = none := by
    simp only [ingestDedup, hc, if_neg hcne, hnone]
  have ho1 := ingest_fresh_events d orch events0 clock1 id1 request hdedup0
  have hpred := ingestRecord_matches d clock1 id1 request c hc
  have hdedup1 : ingestDedup (ingest d orch events0 clock1 id1 request).events request =
      some (ingestRecord d clock1 id1 request) := by
    rw [ho1]
    simp only [ingestDedup, hc, if_neg hcne]
    rw [List.find?_append, hnone]
    simp only [Option.none_or]
    simp only [List.find?, hpred]
  have hsecond := ingest_hit d orch (ingest d orch events0 clock1 id1 request).events
    clock2 id2 request (ingestRecord d clock1 id1 request) hdedup1
  refine ⟨?_, ?_, ?_, ?_, ?_⟩
  · intro r1 hr1
    rw [ingest_fresh d orch events0 clock1 id1 request hdedup0] at hr1
    rw [hsecond]
    cases hp : d.publisher (ingestEnvelope d clock1 id1 request) with
    | error e =>
      rw [hp] at hr1
      cases hr1
    | ok u =>
      rw [hp] at hr1
      cases hr1
      rfl
  · rw [hsecond]
  · rw [ho1, List.filter_append]
    have hfil0 : events0.filter (fun ev => ev.source == request.source &&
        ev.correlation_id == some c) = [] := by
      refine List.filter_eq_nil_iff.2 (fun ev hev => ?_)
      have := List.find?_eq_none.1 hnone ev hev
      simpa using this
    rw [hfil0]
    simp [List.filter_cons, hpred]
  · rw [hsecond]
  · rw [hsecond]

open EventService EventProofs in
/-- Witness for the amended C7: replaying a concrete correlated request
against the no-op transport. -/
theorem claim_C7_witness :
    (ingest dNull orchNoop (ingest dNull orchNoop [] clockE "id1" reqC7).events clockE
      "id2" reqC7).result = .ok (ingestRecord dNull clockE "id1" reqC7) ∧
    ((ingest dNull orchNoop [] clockE "id1" reqC7).events.filter
      (fun ev => ev.source == reqC7.source && ev.correlation_id == some "corr-1")).length =
        1 :=
  ⟨(claim_C7_ingest_dedup dNull orchNoop [] clockE clockE "id1" "id2" reqC7 "corr-1"
      rfl (by decide) rfl).1 (ingestRecord dNull clockE "id1" reqC7) rfl,
   (claim_C7_ingest_dedup dNull orchNoop [] clockE clockE "id1" "id2" reqC7 "corr-1"
      rfl (by decide) rfl).2.2.1⟩

open EventService EventProofs in
/-- C9: on the fresh-ingest path the `PlatformEvent` row is appended
(`session.add` + `flush`) strictly before the transport publisher is
invoked with that row's envelope; when the publisher raises, the failure
reaches the ingestion caller as
`EventServiceError("Failed to publish event")` — the code's realization
of the spec's `TransportError` for publish failures — while the
persisted row is still in the store and no workflow dispatch happens:
publish failure never prevents or undoes the row write. -/
theorem claim_C9_publish_failure_preserves_row (d : EventDispatcher)
    (orch : PlatformEvent → Except String Unit) (events : List PlatformEvent)
    (clock : Clock) (fresh_id : Uuid) (request : EventIngestRequest) (err : String)
    (hdedup : ingestDedup events request = none)
    (hfail : d.publisher (ingestEnvelope d clock fresh_id request) = .error err) :
    ingest d orch events clock fresh_id request =
      { result := .error (.eventServiceError "Failed to publish event")
        events := events ++ [ingestRecord d clock fresh_id request]
        published := [ingestEnvelope d clock fresh_id request]
        dispatched := [] } ∧
    ingestRecord d clock fresh_id request =
      EventDispatcher.buildRecord (ingestEnvelope d clock fresh_id request) := by
  refine ⟨?_, rfl⟩
  rw [ingest_fresh d orch events clock fresh_id request hdedup, hfail]

open EventService EventProofs in
/-- Witness for C9 at a concrete always-failing transport. -/
theorem claim_C9_witness :
    ingest dFail orchNoop [] clockE "id9" reqC9 =
      { result := .error (.eventServiceError "Failed to publish event")
        events := [] ++ [ingestRecord dFail clockE "id9" reqC9]
        published := [ingestEnvelope dFail clockE "id9" reqC9]
        dispatched := [] } :=
  (claim_C9_publish_failure_preserves_row dFail orchNoop [] clockE "id9" reqC9 "boom"
    rfl rfl).1

/-! ## Claim theorems: audit ledger -/

open AuditService AuditVerifier AuditChain in
/-- C1: a ledger produced solely by `AuditService.record`/`record_event`
verifies: `AuditVerifier.verify()` with no bounds succeeds and reports
`checked` equal to the number of stored entries; and if the stored
`entry_hash` (or `previous_hash`) of any one entry is overwritten with a
different value, `verify()` raises `AuditVerificationError` whose message
is the hash-mismatch message naming that entry's own `sequence` — the
walk aborts at that first violation with an error, so no prefix is ever
reported as passing. -/
theorem claim_C1_verify_roundtrip_and_tamper_detection
    (events : List AuditEvent) (i : Nat) (h' p' : String) :
    verify (recordChain events []) none none =
      .ok ⟨(recordChain events []).length,
           min 1 (recordChain events []).length,
           (recordChain events []).length⟩ ∧
    (i < (recordChain events []).length →
      h' ≠ ((recordChain events []).getD i dflAuditLog).entry_hash →
      verify (modifyAt (recordChain events []) i (setEntryHash h')) none none =
        .error (hashMismatchMessage
          ((recordChain events []).getD i dflAuditLog).sequence
          ((recordChain events []).getD i dflAuditLog).entry_hash h')) ∧
    (i < (recordChain events []).length →
      p' ≠ ((recordChain events []).getD i dflAuditLog).previous_hash →
      verify (modifyAt (recordChain events []) i (setPreviousHash p')) none none =
        .error (hashMismatchMessage
          ((recordChain events []).getD i dflAuditLog).sequence
          ((recordChain events []).getD i dflAuditLog).entry_hash
          ((recordChain events []).getD i dflAuditLog).entry_hash)) := by
  have h := chainInv_recordChain_nil events
  exact ⟨verify_ok _ h,
    fun hi hne => verify_mut_entry _ h i h' hi hne,
    fun hi hne => verify_mut_prev _ h i p' hi hne⟩

open AuditService AuditVerifier AuditChain in
/-- Witness for C1 at a concrete one-entry ledger. -/
theorem claim_C1_witness :
    (0 < (recordChain [evW1] []).length ∧
     "x" ≠ ((recordChain [evW1] []).getD 0 dflAuditLog).entry_hash ∧
     "y" ≠ ((recordChain [evW1] []).getD 0 dflAuditLog).previous_hash) ∧
    verify (modifyAt (recordChain [evW1] []) 0 (setEntryHash "x")) none none =
      .error (hashMismatchMessage
        ((recordChain [evW1] []).getD 0 dflAuditLog).sequence
        ((recordChain [evW1] []).getD 0 dflAuditLog).entry_hash "x") ∧
    verify (modifyAt (recordChain [evW1] []) 0 (setPreviousHash "y")) none none =
      .error (hashMismatchMessage
        ((recordChain [evW1] []).getD 0 dflAuditLog).sequence
        ((recordChain [evW1] []).getD 0 dflAuditLog).entry_hash
        ((recordChain [evW1] []).getD 0 dflAuditLog).entry_hash) :=
  ⟨⟨by decide, by decide, by decide⟩,
   (claim_C1_verify_roundtrip_and_tamper_detection [evW1] 0 "x" "y").2.1
     (by decide) (by decide),
   (claim_C1_verify_roundtrip_and_tamper_detection [evW1] 0 "x" "y").2.2
     (by decide) (by decide)⟩

open AuditService AuditVerifier AuditChain in
/-- C2: after any sequence of `record`/`record_event` calls, the stored
ledger satisfies: the first entry has sequence `1` and the 64-zero
genesis `previous_hash`; each later entry links to its predecessor
(`previous_hash[i+1] = entry_hash[i]`, `sequence[i+1] = sequence[i] + 1`);
and every entry's `entry_hash` is the SHA-256 hex digest (64 hex
characters) of its `previous_hash` concatenated with the sorted-key,
no-whitespace JSON serialization of all its fields except `entry_hash`
(`occurred_at` being the UTC ISO-8601 rendering). -/
theorem claim_C2_chain_contiguity_and_hash_invariant
    (events : List AuditEvent) (i : Nat) :
    (0 < (recordChain events []).length →
      ((recordChain events []).getD 0 dflAuditLog).sequence = 1 ∧
      ((recordChain events []).getD 0 dflAuditLog).previous_hash =
        String.mk (List.replicate 64 '0')) ∧
    (i + 1 < (recordChain events []).length →
      ((recordChain events []).getD (i + 1) dflAuditLog).previous_hash =
        ((recordChain events []).getD i dflAuditLog).entry_hash ∧
      ((recordChain events []).getD (i + 1) dflAuditLog).sequence =
        ((recordChain events []).getD i dflAuditLog).sequence + 1) ∧
    (i < (recordChain events []).length →
      ((recordChain events []).getD i dflAuditLog).entry_hash =
        compute_entry_hash
          ((recordChain events []).getD i dflAuditLog).previous_hash
          (serialize_for_hash
            (verifierPayload ((recordChain events []).getD i dflAuditLog)
              ((recordChain events []).getD i dflAuditLog).previous_hash)) ∧
      (((recordChain events []).getD i dflAuditLog).entry_hash).length = 64 ∧
      isHexString (((recordChain events []).getD i dflAuditLog).entry_hash) = true) := by
  have h := chainInv_recordChain_nil events
  refine ⟨fun h0 => ?_, fun h1 => ?_, fun h2 => ?_⟩
  · have hs := chainFrom_getD_sequence _ 0 GENESIS_HASH h 0 h0
    exact ⟨hs, chainFrom_getD_prevHash _ 0 GENESIS_HASH h h0⟩
  · have ha := chainFrom_getD_sequence _ 0 GENESIS_HASH h (i + 1) h1
    have hb := chainFrom_getD_sequence _ 0 GENESIS_HASH h i (by omega)
    exact ⟨chainFrom_getD_prev _ 0 GENESIS_HASH h i h1, by omega⟩
  · have hok := chainFrom_getD_hashOk _ 0 GENESIS_HASH h i h2
    refine ⟨hok, ?_, ?_⟩
    · rw [hok]
      exact sha256hex_length _
    · rw [hok]
      exact sha256hex_isHex _

open AuditService AuditVerifier AuditChain in
/-- Witness for C2 at a concrete two-entry ledger. -/
theorem claim_C2_witness :
    (0 < (recordChain [evW1, evW2] []).length ∧
     0 + 1 < (recordChain [evW1, evW2] []).length) ∧
    ((recordChain [evW1, evW2] []).getD 0 dflAuditLog).sequence = 1 ∧
    ((recordChain [evW1, evW2] []).getD (0 + 1) dflAuditLog).previous_hash =
      ((recordChain [evW1, evW2] []).getD 0 dflAuditLog).entry_hash ∧
    (((recordChain [evW1, evW2] []).getD 0 dflAuditLog).entry_hash).length = 64 :=
  ⟨⟨by decide, by decide⟩,
   ((claim_C2_chain_contiguity_and_hash_invariant [evW1, evW2] 0).1 (by decide)).1,
   ((claim_C2_chain_contiguity_and_hash_invariant [evW1, evW2] 0).2.1 (by decide)).1,
   ((claim_C2_chain_contiguity_and_hash_invariant [evW1, evW2] 0).2.2 (by decide)).2.1⟩

open AuditService AuditChain in
/-- C3: recording twice with the same non-null `event_id` returns the
first call's entry unchanged and leaves the ledger exactly as it was
after the first call (so no sequence number is allocated and the chain's
maximum sequence — the locked tip — does not advance).  The hypothesis
`X ≠ ""` reflects that `event_id` is a `UUID` in the source, whose string
rendering is never empty. -/
theorem claim_C3_record_event_idempotent (store : List AuditLog)
    (e1 e2 : AuditEvent) (X : String) (hX : X ≠ "")
    (h1 : e1.event_id = some X) (h2 : e2.event_id = some X) :
    record_event (record_event store e1).2 e2 =
      ((record_event store e1).1, (record_event store e1).2) ∧
    lock_chain_tip (record_event (record_event store e1).2 e2).2 =
      lock_chain_tip (record_event store e1).2 := by
  have he1 : eventIdStr e1 = some X := by simp [eventIdStr, h1, hX]
  have he2 : eventIdStr e2 = some X := by simp [eventIdStr, h2, hX]
  cases hfind : store.find? (fun a => a.event_id == some X) with
  | some ex =>
    have r1 := record_event_found store e1 X he1 ex hfind
    have r2 := record_event_found store e2 X he2 ex hfind
    rw [r1]
    exact ⟨r2, by rw [r2]⟩
  | none =>
    have r1 := record_event_not_found store e1 X he1 hfind
    rw [r1, record_event_fresh_eq]
    have hfind2 : (store ++ [freshEntry store e1 (some X)]).find?
        (fun a => a.event_id == some X) = some (freshEntry store e1 (some X)) := by
      rw [List.find?_append, hfind]
      simp [freshEntry, List.find?]
    have r2 := record_event_found (store ++ [freshEntry store e1 (some X)]) e2 X he2
      (freshEntry store e1 (some X)) hfind2
    exact ⟨r2, by rw [r2]⟩

open AuditService AuditChain in
/-- Witness for C3: replaying a concrete keyed event. -/
theorem claim_C3_witness :
    ("E" : String) ≠ "" ∧
    record_event (record_event [] evW2).2 evW2 =
      ((record_event [] evW2).1, (record_event [] evW2).2) :=
  ⟨by decide,
   (claim_C3_record_event_idempotent [] evW2 evW2 "E" (by decide) (by rfl) (by rfl)).1⟩

open AuthorizationService AuthzProofs in
/-- Witness for C8: a missing resource errors with the state untouched;
an existing resource yields a boolean. -/
theorem claim_C8_witness :
    authorize stW clockW payloadX =
      (.error (.entityNotFound ("Entity " ++ "zz" ++ " not found")), stW) ∧
    ∃ b st2, authorize stW clockW payloadC = (.ok b, st2) :=
  ⟨(claim_C8_authorize_missing_entity stW clockW payloadX).1 rfl,
   (claim_C8_authorize_missing_entity stW clockW payloadC).2 entC rfl⟩

open AuthorizationService AuthzProofs in
/-- Witness for C4: grant at the child of the assignment entity, deny at
the unrelated sibling, deny when the resource type is outside
`scope_types`. -/
theorem claim_C4_witness :
    (authorize stW clockW payloadC).1 = .ok true ∧
    (authorize stW clockW payloadS).1 = .ok false ∧
    (authorize stW clockW payloadP).1 = .ok false :=
  ⟨(claim_C4_scope_inheritance stW clockW payloadC "p1" asgW roleW entC rfl rfl rfl
      (by decide) rfl rfl rfl rfl (by decide) (fun t ht => nomatch ht) (by decide)).1
      (by decide) (by decide) (by decide),
   (claim_C4_scope_inheritance stW clockW payloadS "p1" asgW roleW entS rfl rfl rfl
      (by decide) rfl rfl rfl rfl (by decide) (fun t ht => nomatch ht) (by decide)).2.1
      (by decide),
   (claim_C4_scope_inheritance stW clockW payloadP "p1" asgW roleW entP rfl rfl rfl
      (by decide) rfl rfl rfl rfl (by decide) (fun t ht => nomatch ht) (by decide)).2.2
      (by decide)⟩

open AuthorizationService RoleService AuthzProofs in
/-- Witness for C5: a concrete grant, revoke of the backing assignment,
then a denied re-evaluation. -/
theorem claim_C5_witness :
    (authorize stW clockW payloadC).1 = .ok true ∧
    (authorize ((revoke_assignment (authorize stW clockW payloadC).2 clockW "a1"
      none).2) clockW payloadC).1 = .ok false :=
  ⟨by rfl,
   claim_C5_revoke_not_masked_by_cache stW clockW clockW clockW payloadC asgW entC none
     rfl rfl rfl rfl (by decide) (by rfl)⟩

open RoleService in
/-- Witness for C10: assigning an existing role at a nonexistent entity. -/
theorem claim_C10_witness :
    assign_role stW clockW asgPayloadW none "newid" =
      (.error (.permissionScope ("Entity " ++ "zz" ++ " not found for assignment")), stW) :=
  (claim_C10_assign_role_missing_entity stW clockW asgPayloadW none "newid" roleW "zz"
    rfl rfl rfl).1

end EPC



